import Mathlib

/-!
# Verification of the MatchEng record-linkage core

A shallow embedding of the record-deduplication pipeline
(`src/similarity.py`, `src/dedup.py`, `src/quality_scorer.py`,
`src/matching_engine.py`, `src/file_processor.py`) together with proofs
settling the frozen claims about its specification.

Conventions of the embedding:
* Python strings are Lean `String`s; the Python regex character classes
  (`\w`, `\s`, `\D`) are modelled at ASCII scope, which covers every input
  appearing in the claims.
* Similarity scores (Python floats in [0, 100]) are modelled as `ℚ`; the
  scores produced by the `rapidfuzz` Indel family are exact rationals.
* Python dicts are insertion-ordered association lists: updating an
  existing key keeps its position, a new key is appended.
* `uuid.uuid4()` (in `generate_dedup_key`) is modelled by an explicit key
  supply `keys : Nat → String` consumed in order, and the SHA-256 prefix
  inside `generate_data_hash` by an abstract `sha : String → String`
  applied to the exact pipe-joined component string the code hashes;
  theorems that depend on hash or key distinctness carry the corresponding
  collision-freeness hypotheses, which hold for the real functions.
* `datetime.utcnow()` timestamps are a parameter `times : Nat → String`
  (row-indexed); the spec itself requires MATCH_TIMESTAMP to be stubbed
  when comparing outputs.
-/

namespace MatchEng

/-! ## Python string primitives (ASCII model) -/

/-- Python whitespace characters (the ASCII part of `str.strip` / regex `\s`). -/
def isPySpace (c : Char) : Bool :=
  c = ' ' || c = '\t' || c = '\n' || c = '\r' || c = '\x0b' || c = '\x0c'

/-- Python regex `\w` at ASCII scope: alphanumeric or underscore. -/
def isWordChar (c : Char) : Bool :=
  c.isAlphanum || c = '_'

/-- The `str.strip()` on a character list. -/
def stripChars (l : List Char) : List Char :=
  ((l.dropWhile isPySpace).reverse.dropWhile isPySpace).reverse

/-- Python `str.strip()`. -/
def pyStrip (s : String) : String :=
  (stripChars s.data).asString

/-- Python `str.lower()` (ASCII). -/
def pyLower (s : String) : String :=
  (s.data.map Char.toLower).asString

/-- Python `str.upper()` (ASCII). -/
def pyUpper (s : String) : String :=
  (s.data.map Char.toUpper).asString

/-- Is `pre` a prefix of `l`? -/
def isPrefixChars : List Char → List Char → Bool
  | [], _ => true
  | _ :: _, [] => false
  | a :: as, b :: bs => a = b && isPrefixChars as bs

/-- Substring containment on character lists (Python `needle in hay`). -/
def listContains (hay needle : List Char) : Bool :=
  match hay with
  | [] => isPrefixChars needle []
  | _ :: rest => isPrefixChars needle hay || listContains rest needle

/-- Python `needle in hay` for strings. -/
def strContains (hay needle : String) : Bool :=
  listContains hay.data needle.data

/-- Python `str.endswith(suffix)`. -/
def strEndsWith (s suffix : String) : Bool :=
  isPrefixChars suffix.data.reverse s.data.reverse

/-- One pass of `re.sub(r'\s+', ' ', ·)`: replace every maximal run of
whitespace by a single `' '`.  `inRun` records whether the previous
character belonged to a whitespace run. -/
def collapseRun : List Char → Bool → List Char
  | [], _ => []
  | c :: cs, inRun =>
    if isPySpace c then
      if inRun then collapseRun cs true else ' ' :: collapseRun cs true
    else
      c :: collapseRun cs false

/-- The `re.sub(r'\s+', ' ', s)`. -/
def collapseWs (s : String) : String :=
  (collapseRun s.data false).asString

/-- Python `str.split()` (split on whitespace runs, dropping empties),
as a list-of-characters worker: accumulates the current token. -/
def pySplitAux : List Char → List Char → List String
  | [], acc => if acc.isEmpty then [] else [acc.reverse.asString]
  | c :: cs, acc =>
    if isPySpace c then
      if acc.isEmpty then pySplitAux cs [] else acc.reverse.asString :: pySplitAux cs []
    else
      pySplitAux cs (c :: acc)

/-- Python `str.split()`. -/
def pySplit (s : String) : List String :=
  pySplitAux s.data []

/-- Stable insertion into a list sorted by `le` (new element goes after
existing elements it ties with, as in Python's stable `sorted`). -/
def stableInsert (le : α → α → Bool) (a : α) : List α → List α
  | [] => [a]
  | b :: bs => if le b a then b :: stableInsert le a bs else a :: b :: bs

/-- Stable sort by `le` (insertion sort; mirrors Python `sorted`). -/
def stableSort (le : α → α → Bool) (l : List α) : List α :=
  l.foldl (fun acc a => stableInsert le a acc) []

/-! ## Insertion-ordered association lists (Python dicts) -/

/-- First-occurrence lookup in an association list. -/
def alookup : List (String × α) → String → Option α
  | [], _ => none
  | (k, v) :: rest, key => if k = key then some v else alookup rest key

/-- Dict assignment `d[k] = v`: update the first occurrence in place,
append if absent (Python dicts keep the position of existing keys). -/
def aset : List (String × α) → String → α → List (String × α)
  | [], key, v => [(key, v)]
  | (k, w) :: rest, key, v =>
    if k = key then (k, v) :: rest else (k, w) :: aset rest key v

/-- The `d.get(k, '')` for string-valued dicts (the pipeline's record access,
`str(record.get(f, '') or '')` — all values are strings here, so the
`or ''` only maps a missing key to the empty string). -/
def agetD (r : List (String × String)) (k : String) : String :=
  (alookup r k).getD ""

/-- A record, as produced by `csv.DictReader` and enriched by the
pipeline: an insertion-ordered string-to-string dict. -/
abbrev Record := List (String × String)

/-! ## `src/similarity.py` — normalizers -/

/-- The `normalize_text` (src/similarity.py): lower-case and strip, replace
every character that is neither `\w` nor `\s` by a space
(`re.sub(r'[^\w\s]', ' ', ·)` — note `\w` keeps underscores), collapse
whitespace runs, strip. -/
def normalize_text (s : String) : String :=
  if s = "" then ""
  else
    let t := pyStrip (pyLower s)
    let t := (t.data.map fun c => if isWordChar c || isPySpace c then c else ' ').asString
    pyStrip (collapseWs t)

/-- The legal-form and article tokens removed by `normalize_company_name`
(the three `\b(...)\b` alternations of src/similarity.py). -/
def companySuffixTokens : List String :=
  ["inc", "incorporated", "corp", "corporation", "llc", "ltd", "limited", "co", "company",
   "plc", "lp", "llp", "pllc", "pc", "pa", "na",
   "the", "a", "an"]

/-- The `normalize_company_name` (src/similarity.py): `normalize_text`, then
drop whole tokens from `companySuffixTokens`, then collapse and strip.
After `normalize_text` the string is single-space-separated `\w`-tokens,
so the word-boundary regex removals act exactly on whole tokens. -/
def normalize_company_name (s : String) : String :=
  if s = "" then ""
  else
    let toks := pySplit (normalize_text s)
    String.intercalate " " (toks.filter fun t => !(companySuffixTokens.contains t))

/-- The whole-word abbreviation table of `normalize_address`. -/
def addressReplacements : List (String × String) :=
  [("street", "st"), ("avenue", "ave"), ("road", "rd"), ("boulevard", "blvd"),
   ("drive", "dr"), ("lane", "ln"), ("court", "ct"), ("place", "pl"),
   ("suite", "ste"), ("apartment", "apt"), ("building", "bldg"), ("floor", "fl"),
   ("north", "n"), ("south", "s"), ("east", "e"), ("west", "w")]

/-- The `normalize_address` (src/similarity.py): `normalize_text`, then the
whole-word substitutions.  No replacement result equals a later pattern,
so the sequential `re.sub`s act as a single per-token map. -/
def normalize_address (s : String) : String :=
  if s = "" then ""
  else
    let toks := pySplit (normalize_text s)
    String.intercalate " " (toks.map fun t => (alookup addressReplacements t).getD t)

/-- The `normalize_phone` (src/similarity.py): keep digits
(`re.sub(r'\D', '', ·)`); drop a leading `1` from an 11-digit result. -/
def normalize_phone (s : String) : String :=
  if s = "" then ""
  else
    let digits := s.data.filter Char.isDigit
    let digits := if digits.length = 11 && digits.headD ' ' = '1' then digits.tail else digits
    digits.asString

/-- The `normalize_email` (src/similarity.py): lower-case and strip. -/
def normalize_email (s : String) : String :=
  if s = "" then "" else pyStrip (pyLower s)

/-! ## `rapidfuzz` similarity primitives

Modelled from the spec: the repository calls the external `rapidfuzz`
library (not part of src/).  Per §4.B the base methods are the
Indel/token-sort family: `ratio` is the Indel-normalized similarity
(`100·2·lcs(a,b)/(|a|+|b|)`), `token_sort_ratio` sorts the
whitespace-separated tokens and applies `ratio`.  `token_set_ratio` and
`partial_ratio` are never reached by the matching pipeline (every call
uses `'token_sort'` or the default); the unreached branches are modelled
by the token-sort value, matching the code's own `else` fallback. -/

/-- Length of the longest common subsequence (dynamic programming row). -/
def lcsLen (xs ys : List Char) : Nat :=
  let step : List Nat → Char → List Nat := fun row x =>
    -- row has length ys.length + 1; row.head is the diagonal for ys = []
    let rec go : List Nat → List Char → Nat → List Nat
      | _, [], _ => []
      | prevRow, y :: ys', left =>
        match prevRow with
        | diag :: rest =>
          let up := rest.headD 0
          let cur := if x = y then diag + 1 else max up left
          cur :: go rest ys' cur
        | [] => []
    0 :: go row ys 0
  (xs.foldl step (List.replicate (ys.length + 1) 0)).getLastD 0

/-- The exact nonnegative rational `n / d`, built directly in reduced
form.  Value-wise this is plain division (see `mkRatNat_eq`); it avoids
routing through `Rat` arithmetic so that the scores stay
kernel-evaluable in concrete runs. -/
def mkRatNat (n d : Nat) : ℚ :=
  if hd : d = 0 then 0
  else
    let g := n.gcd d
    have hg : g ≠ 0 := fun h => hd (Nat.eq_zero_of_gcd_eq_zero_right h)
    ⟨Int.ofNat (n / g), d / g,
      by
        have hgd : g ∣ d := Nat.gcd_dvd_right n d
        have : 0 < d / g :=
          Nat.div_pos (Nat.le_of_dvd (Nat.pos_of_ne_zero hd) hgd) (Nat.pos_of_ne_zero hg)
        omega,
      by
        simpa using Nat.coprime_div_gcd_div_gcd (Nat.pos_of_ne_zero hg)⟩

/-- The `rapidfuzz.fuzz.ratio`: Indel-normalized similarity scaled to 100,
`100·2·lcs(a,b)/(|a|+|b|)`. -/
def fuzzRatioQ (a b : String) : ℚ :=
  let la := a.data.length
  let lb := b.data.length
  if la + lb = 0 then 100
  else mkRatNat (200 * lcsLen a.data b.data) (la + lb)

/-- Lexicographic code-point comparison of character lists (the order
Python's `sorted` uses on strings). -/
def charListLe : List Char → List Char → Bool
  | [], _ => true
  | _ :: _, [] => false
  | a :: as, b :: bs => if a = b then charListLe as bs else decide (a < b)

/-- String comparison for token sorting. -/
def pyStrLe (a b : String) : Bool :=
  charListLe a.data b.data

/-- The `rapidfuzz.fuzz.token_sort_ratio`: split on whitespace, sort the
tokens (code-point order, as Python `sorted`), join with single spaces,
then `ratio`. -/
def tokenSortRatioQ (a b : String) : ℚ :=
  let sortJoin := fun (s : String) =>
    String.intercalate " " (stableSort pyStrLe (pySplit s))
  fuzzRatioQ (sortJoin a) (sortJoin b)

/-- The `calculate_similarity` (src/similarity.py): empty or
whitespace-only input on either side gives 0; otherwise dispatch on the
method name, defaulting to token-sort. -/
def calculate_similarity (value1 value2 : String) (method : String := "token_sort") : ℚ :=
  if value1 = "" || value2 = "" then 0
  else
    let v1 := pyStrip value1
    let v2 := pyStrip value2
    if v1 = "" || v2 = "" then 0
    else if method = "ratio" then fuzzRatioQ v1 v2
    else tokenSortRatioQ v1 v2

/-- The `compare_company_names` (src/similarity.py). -/
def compare_company_names (name1 name2 : String) : ℚ :=
  calculate_similarity (normalize_company_name name1) (normalize_company_name name2) "token_sort"

/-- The `compare_addresses` (src/similarity.py). -/
def compare_addresses (addr1 addr2 : String) : ℚ :=
  calculate_similarity (normalize_address addr1) (normalize_address addr2) "token_sort"

/-- The `compare_phones` (src/similarity.py): exact equality of normalized
phones, 0 on empty. -/
def compare_phones (phone1 phone2 : String) : ℚ :=
  let p1 := normalize_phone phone1
  let p2 := normalize_phone phone2
  if p1 = "" || p2 = "" then 0
  else if p1 = p2 then 100 else 0

/-- The `compare_emails` (src/similarity.py): exact equality of normalized
emails, 0 on empty. -/
def compare_emails (email1 email2 : String) : ℚ :=
  let e1 := normalize_email email1
  let e2 := normalize_email email2
  if e1 = "" || e2 = "" then 0
  else if e1 = e2 then 100 else 0

/-- The `create_blocking_key` (src/similarity.py): first 3 chars of the
normalized company name, first 5 of the raw ZIP, last 4 of the
normalized phone, joined with `_` and lower-cased. -/
def create_blocking_key (record : Record) : String :=
  let company := ((normalize_company_name (agetD record "COMPANY_NAME")).data.take 3).asString
  let zipCode := ((agetD record "ZIP_CODE").data.take 5).asString
  let phoneDigits := (normalize_phone (agetD record "PHONE_NUMBER")).data
  let phone := (phoneDigits.drop (phoneDigits.length - 4)).asString
  pyLower (company ++ "_" ++ zipCode ++ "_" ++ phone)

/-! ## `src/quality_scorer.py`

The lookup sets are the hardcoded defaults installed by
`init_quality_metadata_db` (the SQLite table contents when no external
override is present, as claim C9 assumes). -/

def PERSONAL_DOMAINS : List String :=
  ["gmail.com", "yahoo.com", "hotmail.com", "outlook.com", "aol.com",
   "icloud.com", "mail.com", "protonmail.com", "zoho.com", "yandex.com",
   "live.com", "msn.com", "comcast.net", "att.net", "verizon.net"]

def GENERIC_PREFIXES : List String :=
  ["info", "contact", "sales", "support", "admin", "help", "service",
   "webmaster", "postmaster", "noreply", "no-reply", "hello", "enquiries"]

def DEPARTMENT_PREFIXES : List String :=
  ["hr", "finance", "marketing", "legal", "accounting", "billing",
   "operations", "engineering", "it", "tech", "development"]

def TOLL_FREE_CODES : List String :=
  ["800", "888", "877", "866", "855", "844", "833"]

/-- Character class `[a-zA-Z0-9._%+-]` of the email regex's local part. -/
def isEmailLocalChar (c : Char) : Bool :=
  c.isAlphanum || c = '.' || c = '_' || c = '%' || c = '+' || c = '-'

/-- Character class `[a-zA-Z0-9.-]` of the email regex's domain part. -/
def isEmailDomainChar (c : Char) : Bool :=
  c.isAlphanum || c = '.' || c = '-'

/-- Split a character list at the last occurrence of `sep`
(Python `rsplit(sep, 1)` when `sep` occurs): returns (before, after). -/
def splitLast (sep : Char) (l : List Char) : Option (List Char × List Char) :=
  match l.reverse.takeWhile (· ≠ sep), l.reverse.dropWhile (· ≠ sep) with
  | after, _ :: before => some (before.reverse, after.reverse)
  | _, [] => none

/-- The email-format regex `^[a-zA-Z0-9._%+-]+@[a-zA-Z0-9.-]+\.[a-zA-Z]{2,}$`
as an executable matcher.  The local class excludes `@`, so the matched
`@` is the first (and with the domain classes, only) one; the TLD cannot
contain `.`, so the `\.` matched is the last dot of the domain. -/
def emailFormatValid (s : String) : Bool :=
  match splitLast '@' s.data with
  | none => false
  | some (local_, domain) =>
    !local_.isEmpty && local_.all isEmailLocalChar && !local_.any (· = '@') &&
    match splitLast '.' domain with
    | none => false
    | some (d1, tld) =>
      !d1.isEmpty && d1.all isEmailDomainChar &&
      tld.length ≥ 2 && tld.all Char.isAlpha

/-- Result dict of `calculate_email_quality`, with the key order of the
`result` literal in src/quality_scorer.py. -/
structure EmailQuality where
  valid_format : Nat
  non_personal : Nat
  non_generic : Nat
  non_admin : Nat
  non_department : Nat
  total : Nat
deriving Repr, DecidableEq

/-- The `calculate_email_quality` (src/quality_scorer.py).  The `config`
parameter of the source is unused there and omitted. -/
def calculate_email_quality (email : String) : EmailQuality :=
  if email = "" then ⟨0, 0, 0, 0, 0, 0⟩
  else
    let e := pyStrip (pyLower email)
    if !emailFormatValid e then ⟨0, 0, 0, 0, 0, 0⟩  -- early return, all criteria 0
    else
      match splitLast '@' e.data with
      | none => ⟨20, 0, 0, 0, 0, 20⟩   -- unreachable: the format check found an '@'
      | some (local_, domain) =>
        let lp := local_.asString
        let dm := domain.asString
        let nonPersonal := if PERSONAL_DOMAINS.contains dm then 0 else 20
        let nonGeneric := if GENERIC_PREFIXES.contains lp then 0 else 20
        let adminPrefixes := ["admin", "support", "help", "helpdesk", "service"]
        let nonAdmin := if adminPrefixes.contains lp then 0 else 20
        let nonDept := if DEPARTMENT_PREFIXES.contains lp then 0 else 20
        ⟨20, nonPersonal, nonGeneric, nonAdmin, nonDept,
         20 + nonPersonal + nonGeneric + nonAdmin + nonDept⟩

/-- Result dict of `calculate_phone_quality`, with the key order of the
`result` literal in src/quality_scorer.py. -/
structure PhoneQuality where
  has_10_digits : Nat
  not_all_same : Nat
  valid_area_code : Nat
  valid_exchange : Nat
  valid_line_number : Nat
  not_toll_free : Nat
  not_main_line : Nat
  has_extension : Nat
  high_quality : Nat
  total : Nat
deriving Repr, DecidableEq

/-- The digit string `calculate_phone_quality` scores: digits of the
input, with a leading `1` dropped from an 11-digit result (same
computation as `normalize_phone`). -/
def phoneQualityDigits (phone : String) : List Char :=
  let digits := phone.data.filter Char.isDigit
  if digits.length = 11 && digits.headD ' ' = '1' then digits.tail else digits

/-- The `digits[i:i+4] == digits[i]*4` for some `i in range(7)`. -/
def hasRepeatingBlock (digits : List Char) : Bool :=
  (List.range 7).any fun i =>
    match digits.drop i with
    | c :: rest => (rest.take 3).all (· = c) && (rest.take 3).length = 3
    | [] => false

/-- The `calculate_phone_quality` (src/quality_scorer.py).  The unused
`config` parameter is omitted; `extension` is the raw string value
(`record.get('PHONE_EXTENSION', '')` at the call site), truthy iff it
strips to a non-empty string. -/
def calculate_phone_quality (phone extension : String) : PhoneQuality :=
  if phone = "" then ⟨0, 0, 0, 0, 0, 0, 0, 0, 0, 0⟩
  else
    let digits := phoneQualityDigits phone
    if digits.length = 10 then
      let hasTen := 11
      let notAllSame := if digits.any (· ≠ digits.headD ' ') then 11 else 0
      let areaCode := (digits.take 3).asString
      let exchange := ((digits.drop 3).take 3).asString
      let lineNumber := (digits.drop 6).asString
      let validArea := if areaCode.data.headD ' ' ∉ ['0', '1'] then 11 else 0
      let validExchange := if exchange.data.headD ' ' ∉ ['0', '1'] then 11 else 0
      let validLine := if lineNumber ≠ "0000" then 11 else 0
      let notTollFree := if !TOLL_FREE_CODES.contains areaCode then 12 else 0
      let isMainLine := strEndsWith lineNumber "000" || strEndsWith lineNumber "0000"
      let notMainLine := if !isMainLine then 11 else 0
      let hasExt :=
        if pyStrip extension ≠ "" then 11
        else if !isMainLine then 5 else 0
      let sequential := listContains digits "0123456789".data ||
        listContains digits "9876543210".data
      let highQuality := if !sequential && !hasRepeatingBlock digits then 11 else 0
      ⟨hasTen, notAllSame, validArea, validExchange, validLine, notTollFree,
       notMainLine, hasExt, highQuality,
       hasTen + notAllSame + validArea + validExchange + validLine + notTollFree +
         notMainLine + hasExt + highQuality⟩
    else ⟨0, 0, 0, 0, 0, 0, 0, 0, 0, 0⟩

/-! ## `src/dedup.py` — the persistent dedup store

`metadata` (timestamps, run counter) is bookkeeping outside every claim
and is not modelled; `save_dedup_mappings` only bumps it and serializes. -/

/-- The in-memory dedup mapping object (the three JSON indices). -/
structure Mappings where
  dataHashToKey : List (String × String)
  keyToDataHashes : List (String × List String)
  keyToIdentifiers : List (String × List String)
deriving Repr, DecidableEq

/-- The default empty store created by `load_dedup_mappings`. -/
def emptyMappings : Mappings := ⟨[], [], []⟩

/-- The pipe-joined component string hashed by `generate_data_hash`:
`SOURCE_TYPE` upper-stripped, `SOURCE_ID` stripped, normalized company
name, normalized ADDRESS_LINE_1, normalized phone. -/
def dataHashComponents (record : Record) : String :=
  String.intercalate "|"
    [pyUpper (pyStrip (agetD record "SOURCE_TYPE")),
     pyStrip (agetD record "SOURCE_ID"),
     normalize_company_name (agetD record "COMPANY_NAME"),
     normalize_address (agetD record "ADDRESS_LINE_1"),
     normalize_phone (agetD record "PHONE_NUMBER")]

/-- The `generate_data_hash` (src/dedup.py): the code returns the first 16
hex chars of the SHA-256 of `dataHashComponents`; the hash itself is the
abstract parameter `sha`. -/
def generate_data_hash (sha : String → String) (record : Record) : String :=
  sha (dataHashComponents record)

/-- The `f"{SOURCE_TYPE}:{SOURCE_ID}"` (raw values, as in the source). -/
def recordIdentifier (record : Record) : String :=
  agetD record "SOURCE_TYPE" ++ ":" ++ agetD record "SOURCE_ID"

/-- The `get_or_create_dedup_key` (src/dedup.py).  `freshKey` stands for the
`generate_dedup_key()` (uuid4) draw made on the miss path; it is not
consulted on a hit.  Returns (dedup_key, is_new, updated mappings). -/
def get_or_create_dedup_key (sha : String → String) (freshKey : String)
    (record : Record) (m : Mappings) : String × Bool × Mappings :=
  let dataHash := generate_data_hash sha record
  match alookup m.dataHashToKey dataHash with
  | some k => (k, false, m)
  | none =>
    (freshKey, true,
      { dataHashToKey := aset m.dataHashToKey dataHash freshKey
        keyToDataHashes := aset m.keyToDataHashes freshKey [dataHash]
        keyToIdentifiers := aset m.keyToIdentifiers freshKey [recordIdentifier record] })

/-- The `link_records` (src/dedup.py): unconditionally (re)binds the
record's data hash to `dedupKey`, then appends the hash and identifier
to that key's member lists when not already present. -/
def link_records (sha : String → String) (dedupKey : String)
    (record : Record) (m : Mappings) : Mappings :=
  let dataHash := generate_data_hash sha record
  let hashes := (alookup m.keyToDataHashes dedupKey).getD []
  let hashes := if hashes.contains dataHash then hashes else hashes ++ [dataHash]
  let identifier := recordIdentifier record
  let ids := (alookup m.keyToIdentifiers dedupKey).getD []
  let ids := if ids.contains identifier then ids else ids ++ [identifier]
  { dataHashToKey := aset m.dataHashToKey dataHash dedupKey
    keyToDataHashes := aset m.keyToDataHashes dedupKey hashes
    keyToIdentifiers := aset m.keyToIdentifiers dedupKey ids }

/-- The `get_matched_identifiers` (src/dedup.py). -/
def get_matched_identifiers (dedupKey : String) (m : Mappings) : List String :=
  (alookup m.keyToIdentifiers dedupKey).getD []

/-! ## `src/matching_engine.py` — rule engine -/

/-- A rule condition (`conditions: [...]` entries of rules.json), with
the defaults applied by the `.get` calls of `evaluate_condition`:
`percentage` 0, `include` True, `blank` False, `blank_allowed` False. -/
structure Condition where
  field : String
  percentage : ℚ := 0
  include' : Bool := true
  blank : Bool := false
  blank_allowed : Bool := false
deriving Repr, DecidableEq

/-- A rule (`rules.json` entry), with the defaults of the engine's
`.get` calls: `enabled` True, `priority` 999, `match_reason` falling
back to the rule id. -/
structure Rule where
  enabled : Bool := true
  priority : Int := 999
  match_reason : Option String := none
  conditions : List Condition := []
deriving Repr, DecidableEq

/-- The rule map `{rules: {id → Rule}}`, insertion-ordered. -/
abbrev RuleSet := List (String × Rule)

/-- The field-comparator dispatch used by `evaluate_condition`
(src/matching_engine.py lines 67–76): substring of the uppercased field
name, precedence COMPANY|NAME, ADDRESS, PHONE, EMAIL, generic. -/
def conditionSimilarity (field val1 val2 : String) : ℚ :=
  let f := pyUpper field
  if strContains f "COMPANY" || strContains f "NAME" then compare_company_names val1 val2
  else if strContains f "ADDRESS" then compare_addresses val1 val2
  else if strContains f "PHONE" then compare_phones val1 val2
  else if strContains f "EMAIL" then compare_emails val1 val2
  else calculate_similarity val1 val2

/-- The per-field score dispatch used by `evaluate_rule`'s `scores`
dict (src/matching_engine.py lines 107–117).  Unlike
`conditionSimilarity` it tests only COMPANY — there is no NAME case. -/
def scoreSimilarity (field val1 val2 : String) : ℚ :=
  let f := pyUpper field
  if strContains f "COMPANY" then compare_company_names val1 val2
  else if strContains f "ADDRESS" then compare_addresses val1 val2
  else if strContains f "PHONE" then compare_phones val1 val2
  else if strContains f "EMAIL" then compare_emails val1 val2
  else calculate_similarity val1 val2

/-- The `evaluate_condition` (src/matching_engine.py). -/
def evaluate_condition (record1 record2 : Record) (c : Condition) : Bool :=
  let val1 := pyStrip (agetD record1 c.field)
  let val2 := pyStrip (agetD record2 c.field)
  if c.blank then val1 = "" && val2 = ""
  else if val1 = "" || val2 = "" then c.blank_allowed
  else
    let similarity := conditionSimilarity c.field val1 val2
    if c.include' then decide (c.percentage ≤ similarity)
    else decide (similarity < c.percentage)

/-- The condition loop of `evaluate_rule`: record the observability
score for each condition with both values non-empty, stop at the first
failing condition returning the scores accumulated so far. -/
def evalConditions (record1 record2 : Record) :
    List Condition → List (String × ℚ) → Bool × List (String × ℚ)
  | [], scores => (true, scores)
  | c :: rest, scores =>
    let val1 := pyStrip (agetD record1 c.field)
    let val2 := pyStrip (agetD record2 c.field)
    let scores :=
      if val1 ≠ "" && val2 ≠ "" then
        aset scores (pyLower c.field ++ "_score") (scoreSimilarity c.field val1 val2)
      else scores
    if evaluate_condition record1 record2 c then evalConditions record1 record2 rest scores
    else (false, scores)

/-- The `evaluate_rule` (src/matching_engine.py): disabled or
condition-less rules never match. -/
def evaluate_rule (record1 record2 : Record) (rule : Rule) : Bool × List (String × ℚ) :=
  if !rule.enabled then (false, [])
  else if rule.conditions.isEmpty then (false, [])
  else evalConditions record1 record2 rule.conditions []

/-- The `find_best_match` (src/matching_engine.py): rules stably sorted by
priority (Python `sorted` keeps insertion order on ties), first matching
(rule, candidate) pair wins.  Returns (matched record, match_reason,
scores). -/
def find_best_match (record : Record) (candidates : List Record) (rules : RuleSet) :
    Option Record × String × List (String × ℚ) :=
  let sortedRules := stableSort (fun a b => decide (a.2.priority ≤ b.2.priority)) rules
  go sortedRules
where
  tryCandidates (rule : Rule) (reason : String) :
      List Record → Option (Record × String × List (String × ℚ))
    | [] => none
    | cand :: rest =>
      let (isMatch, scores) := evaluate_rule record cand rule
      if isMatch then some (cand, reason, scores) else tryCandidates rule reason rest
  go : List (String × Rule) → Option Record × String × List (String × ℚ)
    | [] => (none, "", [])
    | (ruleId, rule) :: rest =>
      if !rule.enabled then go rest
      else
        match tryCandidates rule (rule.match_reason.getD ruleId) candidates with
        | some (cand, reason, scores) => (some cand, reason, scores)
        | none => go rest

/-! ## `src/matching_engine.py` — the pipeline -/

/-- The `standardize_record`: add the five `*_STD` fields. -/
def standardize_record (record : Record) : Record :=
  let r := aset record "COMPANY_NAME_STD" (normalize_company_name (agetD record "COMPANY_NAME"))
  let r := aset r "ADDRESS1_STD" (normalize_address (agetD record "ADDRESS_LINE_1"))
  let r := aset r "ADDRESS2_STD" (normalize_address (agetD record "ADDRESS_LINE_2"))
  let r := aset r "PHONE_STD" (normalize_phone (agetD record "PHONE_NUMBER"))
  aset r "EMAIL_STD" (normalize_email (agetD record "EMAIL_ADDRESS"))

/-- The `calculate_quality_scores`: add the quality totals and per-criterion
fields, in the dict insertion order of the source (totals first, then
email criteria, then phone criteria).  The settings argument is unused
by the scorers and omitted.  Numeric values are rendered with
`Nat` decimal notation as the CSV writer would. -/
def calculate_quality_scores (record : Record) : Record :=
  let eq := calculate_email_quality (agetD record "EMAIL_ADDRESS")
  let pq := calculate_phone_quality (agetD record "PHONE_NUMBER")
    (agetD record "PHONE_EXTENSION")
  let r := aset record "email_quality_total" (toString eq.total)
  let r := aset r "phone_quality_total" (toString pq.total)
  let r := aset r "email_quality_valid_format" (toString eq.valid_format)
  let r := aset r "email_quality_non_personal" (toString eq.non_personal)
  let r := aset r "email_quality_non_generic" (toString eq.non_generic)
  let r := aset r "email_quality_non_admin" (toString eq.non_admin)
  let r := aset r "email_quality_non_department" (toString eq.non_department)
  let r := aset r "phone_quality_has_10_digits" (toString pq.has_10_digits)
  let r := aset r "phone_quality_not_all_same" (toString pq.not_all_same)
  let r := aset r "phone_quality_valid_area_code" (toString pq.valid_area_code)
  let r := aset r "phone_quality_valid_exchange" (toString pq.valid_exchange)
  let r := aset r "phone_quality_valid_line_number" (toString pq.valid_line_number)
  let r := aset r "phone_quality_not_toll_free" (toString pq.not_toll_free)
  let r := aset r "phone_quality_not_main_line" (toString pq.not_main_line)
  let r := aset r "phone_quality_has_extension" (toString pq.has_extension)
  aset r "phone_quality_high_quality" (toString pq.high_quality)

/-- Per-record enrichment done in the blocking loop:
`standardize_record` then `calculate_quality_scores`. -/
def enrichRecord (record : Record) : Record :=
  calculate_quality_scores (standardize_record record)

/-- Append `i` to the block of `key` (defaultdict(list) append). -/
def blockAppend (blocks : List (String × List Nat)) (key : String) (i : Nat) :
    List (String × List Nat) :=
  match alookup blocks key with
  | some l => aset blocks key (l ++ [i])
  | none => blocks ++ [(key, [i])]

/-- The blocking pass: group record indices by blocking key, in input
order. -/
def buildBlocks (recs : List Record) : List (String × List Nat) :=
  (recs.enum.foldl (fun blocks (i, r) => blockAppend blocks (create_blocking_key r) i) [])

/-- Render the similarity score stored into the output record
(`record[key] = round(value, 2) if value else 0`, then `str()` by the
CSV writer).  All scores reached by the claims are integral; the
rendering of non-integral rationals approximates Python float repr and
is not relied upon by any theorem. -/
def scoreCellString (q : ℚ) : String :=
  if q = 0 then "0"
  else
    let n := q.num.toNat
    let d := q.den
    let r := (100 * n + d / 2) / d  -- round(value, 2); ties/negatives never arise here
    if r % 100 = 0 then toString (r / 100) ++ ".0"
    else if r % 10 = 0 then toString (r / 100) ++ "." ++ toString (r % 100 / 10)
    else toString (r / 100) ++ "." ++ (if r % 100 < 10 then "0" else "") ++ toString (r % 100)

/-- Loop state of the per-row processing loop of `run_matching`. -/
structure EngineState where
  recs : List Record
  mappings : Mappings
  matchedExisting : Nat
  newDedupKeys : Nat
  results : List Record
  processed : List Nat
  ctr : Nat
deriving Repr

/-- The record processed at row `i` (the loop variable `record`). -/
def rowRecord (st : EngineState) (i : Nat) : Record :=
  st.recs.getD i []

/-- The candidate list of row `i` (src/matching_engine.py lines
266–268): same blocking key, different index, not yet processed. -/
def rowCandidates (blocks : List (String × List Nat)) (st : EngineState) (i : Nat) :
    List Record :=
  let blockingKey := create_blocking_key (rowRecord st i)
  let candidateIdx := ((alookup blocks blockingKey).getD []).filter
    (fun j => j ≠ i && !st.processed.contains j)
  candidateIdx.map (fun j => st.recs.getD j [])

/-- One iteration of the `run_matching` row loop
(src/matching_engine.py lines 264–303).  `keys` is the uuid4 supply,
`times i` the row's `MATCH_TIMESTAMP`.  The `except` branch is
unreachable in this total model, so `errors` stays 0. -/
def processRow (sha : String → String) (keys : Nat → String) (times : Nat → String)
    (rules : RuleSet) (blocks : List (String × List Nat))
    (st : EngineState) (i : Nat) : EngineState :=
  let record := rowRecord st i
  let candidates := rowCandidates blocks st i
  let (matched, matchReason, scores) := find_best_match record candidates rules
  let (record', mappings', matchedE', newK', ctr') :=
    match matched with
    | some matchedRecord =>
      let (dedupKey, _isNew, m1, c1) :=
        match alookup matchedRecord "DEDUP_KEY" with
        | some v =>
          if v ≠ "" then (v, false, st.mappings, st.ctr)
          else
            let (k, n, m) := get_or_create_dedup_key sha (keys st.ctr) record st.mappings
            (k, n, m, if n then st.ctr + 1 else st.ctr)
        | none =>
          let (k, n, m) := get_or_create_dedup_key sha (keys st.ctr) record st.mappings
          (k, n, m, if n then st.ctr + 1 else st.ctr)
      let m2 := link_records sha dedupKey record m1
      let r := aset record "DEDUP_KEY" dedupKey
      let r := aset r "MATCH_REASON" matchReason
      let r := aset r "MATCHED_RECORD_IDS"
        (String.intercalate "|" (get_matched_identifiers dedupKey m2))
      let r := scores.foldl (fun r kv => aset r kv.1 (scoreCellString kv.2)) r
      (r, m2, st.matchedExisting + 1, st.newDedupKeys, c1)
    | none =>
      let (dedupKey, isNew, m1) := get_or_create_dedup_key sha (keys st.ctr) record st.mappings
      let r := aset record "DEDUP_KEY" dedupKey
      let r := aset r "MATCH_REASON" "NEW"
      let r := aset r "MATCHED_RECORD_IDS" ""
      (r, m1, st.matchedExisting,
       if isNew then st.newDedupKeys + 1 else st.newDedupKeys,
       if isNew then st.ctr + 1 else st.ctr)
  let record'' := aset record' "MATCH_TIMESTAMP" (times i)
  { recs := st.recs.set i record''
    mappings := mappings'
    matchedExisting := matchedE'
    newDedupKeys := newK'
    results := st.results ++ [record'']
    processed := st.processed ++ [i]
    ctr := ctr' }

/-- Run statistics (`stats` dict); `start_time`/`end_time` are
wall-clock strings outside every claim and are not modelled, and
`errors` is always 0 because the per-row exception path is unreachable
in the total model. -/
structure RunStats where
  total_records : Nat
  matched_existing : Nat
  new_dedup_keys : Nat
  errors : Nat
deriving Repr, DecidableEq

/-- Result of a `run_matching` run over already-parsed records. -/
structure RunResult where
  stats : RunStats
  results : List Record
  mappings : Mappings
deriving Repr

/-- The core of `run_matching` (src/matching_engine.py lines 248–312)
over the parsed record list: enrichment and blocking pass, then the row
loop in input order. -/
def runCore (sha : String → String) (keys : Nat → String) (times : Nat → String)
    (rules : RuleSet) (store : Mappings) (records0 : List Record) : RunResult :=
  let recs := records0.map enrichRecord
  let blocks := buildBlocks recs
  let st0 : EngineState := ⟨recs, store, 0, 0, [], [], 0⟩
  let stF := (List.range recs.length).foldl (processRow sha keys times rules blocks) st0
  { stats := ⟨records0.length, stF.matchedExisting, stF.newDedupKeys, 0⟩
    results := stF.results
    mappings := stF.mappings }

/-- The `csv.DictReader` over parsed rows: a row parsed as the empty field
list (a blank line) is skipped; every other row is zipped with the
header.  Claims only exercise rows whose length equals the header's, so
the `restval`/`restkey` padding of DictReader does not arise. -/
def readRecords (header : List String) (rows : List (List String)) : List Record :=
  (rows.filter (fun r => !r.isEmpty)).map fun r => header.zip r

/-- The output-column union over the result records, first-seen order
(src/matching_engine.py lines 320–325). -/
def outputColumns (results : List Record) : List String :=
  results.foldl (fun cols r => r.foldl
    (fun cols kv => if cols.contains kv.1 then cols else cols ++ [kv.1]) cols) []

/-- The written output table (header row then one row per record,
missing cells as the DictWriter `restval` empty string); the
`selected_output_columns` whitelist of the source replaces the computed
union when given. -/
def outputTable (selected : Option (List String)) (results : List Record) :
    List (List String) :=
  let cols := selected.getD (outputColumns results)
  cols :: results.map fun r => cols.map fun c => agetD r c

/-- Drop the named column from an output table (used to compare outputs
"apart from the MATCH_TIMESTAMP column"). -/
def eraseColumn (name : String) (table : List (List String)) : List (List String) :=
  match table with
  | [] => []
  | header :: rows =>
    let keep : List Nat := (header.enum.filter fun p => p.2 ≠ name).map (·.1)
    (header :: rows).map fun row => keep.filterMap fun i => row.get? i

/-- run_matching on a parsed CSV (header + rows, no field mapping —
every claim uses the identity mapping path where each row is taken
as-is), producing stats, results, final store and the output table. -/
def runMatching (sha : String → String) (keys : Nat → String) (times : Nat → String)
    (rules : RuleSet) (store : Mappings)
    (header : List String) (rows : List (List String)) :
    RunResult × List (List String) :=
  let res := runCore sha keys times rules store (readRecords header rows)
  (res, outputTable none res.results)

/-! ## `src/file_processor.py` — header auto-mapping -/

/-- The slice of column metadata read by `build_column_mapping`
(`meta.get('alternate_columns', [])`; the display label, description and
group fields are not consulted by it). -/
structure ColumnMeta where
  alternate_columns : List String := []
deriving Repr, DecidableEq

/-- Does `build_column_mapping`'s inner loop accept `stdCol` for a
source header whose `upper().strip()` is `sourceUpper`?  Exact match
with the canonical name, or exact match with an alternate (uppercased). -/
def columnMatches (sourceUpper stdCol : String) (meta : ColumnMeta) : Bool :=
  sourceUpper = pyUpper stdCol || (meta.alternate_columns.map pyUpper).contains sourceUpper

/-- The inner metadata scan of `build_column_mapping`: first entry whose
canonical name or alternates match exactly, if any. -/
def findStdColumn (sourceCol : String) (metadata : List (String × ColumnMeta)) :
    Option String :=
  metadata.findSome? fun p =>
    if columnMatches (pyStrip (pyUpper sourceCol)) p.1 p.2 then some p.1 else none

/-- The `build_column_mapping` (src/file_processor.py lines 26–48). -/
def build_column_mapping (source_headers : List String)
    (metadata : List (String × ColumnMeta)) : List (String × String) :=
  source_headers.foldl
    (fun mapping h =>
      match findStdColumn h metadata with
      | some std => aset mapping h std
      | none => mapping)
    []

/-! ## Spec-side definition for claim C8 -/

/-- Modelled from the spec (§4.A): "`normalize_text(s)`: lower-case,
replace non-alphanumeric with space, collapse whitespace, trim" — the
replacement clause taken literally (every non-alphanumeric character,
so also `_`, becomes a space).  Used only to compare against the
code's `normalize_text`. -/
def specNormalizeText (s : String) : String :=
  pyStrip (collapseWs ((pyLower s).data.map fun c => if c.isAlphanum then c else ' ').asString)

/-! ## Concrete fixtures used by the claims -/

/-- Identity stand-in for the 16-hex-char SHA-256 prefix in concrete
runs: collision-free on the component strings involved, as the real
hash is. -/
def shaId : String → String := fun s => s

/-- A concrete uuid4 supply: `key0`, `key1`, … (pairwise distinct, as
actual uuid4 draws are). -/
def keySupply : Nat → String := fun n => "key" ++ toString n

/-- A stubbed MATCH_TIMESTAMP supply. -/
def timeStub : Nat → String := fun _ => "2025-01-01T00:00:00"

/-- Header of the S1 scenario input (spec §8). -/
def s1Header : List String :=
  ["SOURCE_TYPE", "SOURCE_ID", "COMPANY_NAME", "ADDRESS_LINE_1", "ZIP_CODE",
   "PHONE_NUMBER", "EMAIL_ADDRESS"]

/-- The two S1 rows. -/
def s1Rows : List (List String) :=
  [["A", "1", "Acme, Inc.", "100 Main St", "10001", "(212) 555-0100", "ops@acme.com"],
   ["B", "9", "ACME INCORPORATED", "100 Main Street", "10001", "212-555-0100", "ops@acme.com"]]

/-- The single enabled S1 rule: company ≥ 85 AND phone ≥ 100 AND
zip ≥ 100. -/
def s1Rule : Rule :=
  { enabled := true
    priority := 1
    match_reason := some "COMPANY_PHONE_ZIP"
    conditions :=
      [{ field := "COMPANY_NAME", percentage := 85 },
       { field := "PHONE_NUMBER", percentage := 100 },
       { field := "ZIP_CODE", percentage := 100 }] }

/-- The S1 rule set. -/
def s1Rules : RuleSet := [("rule1", s1Rule)]

/-- The S1 run against an empty store. -/
def s1Run : RunResult × List (List String) :=
  runMatching shaId keySupply timeStub s1Rules emptyMappings s1Header s1Rows

/-- A one-record input used by several counterexamples. -/
def soloRecord : Record := [("SOURCE_TYPE", "A"), ("SOURCE_ID", "7"), ("COMPANY_NAME", "Zeta")]

/-- First run of the solo record against the empty store, no rules. -/
def soloRun1 : RunResult := runCore shaId keySupply timeStub [] emptyMappings [soloRecord]

/-- Second run of the same record against the store left by the first. -/
def soloRun2 : RunResult := runCore shaId keySupply timeStub [] soloRun1.mappings [soloRecord]

/-- The rule used by the C5 counterexample: a single always-passing
condition on a field containing NAME but not COMPANY. -/
def nameRule : Rule :=
  { enabled := true, priority := 1, match_reason := some "NAME_ONLY",
    conditions := [{ field := "NAME", percentage := 0 }] }

/-- A store binding the empty record's data hash (components `||||`)
to `K1`: the C3 counterexample's prior state. -/
def c3Store : Mappings :=
  { dataHashToKey := [("||||", "K1")]
    keyToDataHashes := [("K1", ["||||"])]
    keyToIdentifiers := [("K1", [":"])] }

/-- One-column header for the C4 counterexample. -/
def c4Header : List String := ["SOURCE_TYPE"]

/-- One data row for the C4 counterexample. -/
def c4Rows : List (List String) := [["x"]]

/-- A run of the C4 input whose uuid4 drew `aaaa`. -/
def c4RunA : RunResult × List (List String) :=
  runMatching shaId (fun _ => "aaaa") timeStub [] emptyMappings c4Header c4Rows

/-- The same run with a different uuid4 draw, `bbbb`. -/
def c4RunB : RunResult × List (List String) :=
  runMatching shaId (fun _ => "bbbb") timeStub [] emptyMappings c4Header c4Rows

/-- The CSV serialization of `soloRecord` (C4 witness input). -/
def soloHeader : List String := ["SOURCE_TYPE", "SOURCE_ID", "COMPANY_NAME"]

/-- The single data row of the C4 witness input. -/
def soloRows : List (List String) := [["A", "7", "Zeta"]]

/-- The C7 counterexample run: a two-column row both of whose values
are empty strings, against no rules and the empty store. -/
def c7Run : RunResult × List (List String) :=
  runMatching shaId keySupply timeStub [] emptyMappings ["A", "B"] [["", ""]]

/-- The engine state before row 0 of the S1 run (C10 witness). -/
def c10State : EngineState :=
  ⟨(readRecords s1Header s1Rows).map enrichRecord, emptyMappings, 0, 0, [], [], 0⟩

/-- The S1 blocking groups (C10 witness). -/
def c10Blocks : List (String × List Nat) :=
  buildBlocks ((readRecords s1Header s1Rows).map enrichRecord)

/-! ## Invariant vocabulary for the row loop -/

/-- The set of stored data hashes only grows from `a` to `b`. -/
def StoreMono (a b : Mappings) : Prop :=
  ∀ x, (alookup a.dataHashToKey x).isSome = true → (alookup b.dataHashToKey x).isSome = true

/-- Invariant after `n` iterations of the `run_matching` row loop,
starting from `store` on input `records0`. -/
structure LoopInv (sha : String → String) (records0 : List Record) (store : Mappings)
    (n : Nat) (st : EngineState) : Prop where
  recs_len : st.recs.length = records0.length
  recs_eq : ∀ j, n ≤ j → st.recs.get? j = (records0.map enrichRecord).get? j
  processed_eq : st.processed = List.range n
  results_len : st.results.length = n
  mono : StoreMono store st.mappings
  hashes_present : ∀ j, j < n →
    (alookup st.mappings.dataHashToKey
      (generate_data_hash sha (records0.getD j []))).isSome = true

/-- The final loop state of `runCore`. -/
def finalState (sha : String → String) (keys times : Nat → String)
    (rules : RuleSet) (store : Mappings) (records0 : List Record) : EngineState :=
  let recs := records0.map enrichRecord
  (List.range recs.length).foldl (processRow sha keys times rules (buildBlocks recs))
    ⟨recs, store, 0, 0, [], [], 0⟩

/-! ## The score constructor is plain division -/

theorem mkRatNat_eq (n d : Nat) : mkRatNat n d = (n : ℚ) / (d : ℚ) := by
  by_cases hd : d = 0
  · simp [mkRatNat, hd]
  · simp only [mkRatNat, dif_neg hd]
    have hg0 : 0 < n.gcd d := Nat.gcd_pos_of_pos_right n (Nat.pos_of_ne_zero hd)
    have hdvd_n : n.gcd d ∣ n := Nat.gcd_dvd_left n d
    have hdvd_d : n.gcd d ∣ d := Nat.gcd_dvd_right n d
    rw [Rat.mk'_eq_divInt]
    have hcross : (n / n.gcd d) * d = n * (d / n.gcd d) := by
      rw [← Nat.mul_div_assoc n hdvd_d, Nat.mul_comm (n / n.gcd d) d,
        ← Nat.mul_div_assoc d hdvd_n, Nat.mul_comm d n]
    have hdg : 0 < d / n.gcd d :=
      Nat.div_pos (Nat.le_of_dvd (Nat.pos_of_ne_zero hd) hdvd_d) hg0
    have z1 : ((d / n.gcd d : Nat) : Int) ≠ 0 := by exact_mod_cast hdg.ne'
    have z2 : ((d : Nat) : Int) ≠ 0 := by exact_mod_cast hd
    have h1 : Rat.divInt (Int.ofNat (n / n.gcd d)) ((d / n.gcd d : Nat) : Int)
        = Rat.divInt (n : Int) (d : Int) :=
      (Rat.divInt_eq_iff z1 z2).mpr
        (by simp only [Int.ofNat_eq_coe]; exact_mod_cast hcross)
    rw [h1, Rat.divInt_eq_div]
    push_cast
    rfl

/-! ## Association-list lemmas -/

theorem alookup_aset_self (l : List (String × α)) (k : String) (v : α) :
    alookup (aset l k v) k = some v := by
  induction l with
  | nil => simp [aset, alookup]
  | cons p rest ih =>
    obtain ⟨k', w⟩ := p
    by_cases h : k' = k
    · simp [aset, alookup, h]
    · simp [aset, alookup, h, ih]

theorem alookup_aset_ne (l : List (String × α)) (k k' : String) (v : α) (h : k' ≠ k) :
    alookup (aset l k v) k' = alookup l k' := by
  induction l with
  | nil => simp [aset, alookup, Ne.symm h]
  | cons p rest ih =>
    obtain ⟨k₀, w⟩ := p
    by_cases h0 : k₀ = k
    · subst h0
      simp [aset, alookup, Ne.symm h]
    · simp [aset, alookup, h0, ih]

theorem isSome_alookup_aset (l : List (String × α)) (k k' : String) (v : α)
    (h : (alookup l k').isSome = true) :
    (alookup (aset l k v) k').isSome = true := by
  by_cases e : k' = k
  · subst e; simp [alookup_aset_self]
  · rwa [alookup_aset_ne _ _ _ _ e]

theorem agetD_aset_ne (r : Record) (k k' v : String) (h : k' ≠ k) :
    agetD (aset r k v) k' = agetD r k' := by
  simp [agetD, alookup_aset_ne _ _ _ _ h]

/-! ## Dedup-store operation lemmas -/

/-- The `get_or_create_dedup_key` on a hash hit returns the existing key,
`is_new = False`, and leaves the store untouched — for any uuid draw. -/
theorem goc_hit {sha : String → String} {record : Record} {m : Mappings} {k : String}
    (h : alookup m.dataHashToKey (generate_data_hash sha record) = some k)
    (freshKey : String) :
    get_or_create_dedup_key sha freshKey record m = (k, false, m) := by
  simp [get_or_create_dedup_key, h]

/-- The `get_or_create_dedup_key` on a miss mints the fresh key. -/
theorem goc_miss {sha : String → String} {record : Record} {m : Mappings}
    (h : alookup m.dataHashToKey (generate_data_hash sha record) = none)
    (freshKey : String) :
    get_or_create_dedup_key sha freshKey record m =
      (freshKey, true,
        { dataHashToKey := aset m.dataHashToKey (generate_data_hash sha record) freshKey
          keyToDataHashes := aset m.keyToDataHashes freshKey [generate_data_hash sha record]
          keyToIdentifiers := aset m.keyToIdentifiers freshKey [recordIdentifier record] }) := by
  simp [get_or_create_dedup_key, h]

/-- The `get_or_create_dedup_key` never changes an existing
`data_hash → key` binding. -/
theorem goc_preserves_binding (sha : String → String) (freshKey : String)
    (record : Record) (m : Mappings) (x k : String)
    (h : alookup m.dataHashToKey x = some k) :
    alookup (get_or_create_dedup_key sha freshKey record m).2.2.dataHashToKey x = some k := by
  rcases hg : alookup m.dataHashToKey (generate_data_hash sha record) with _ | k'
  · rw [goc_miss hg]
    have hne : x ≠ generate_data_hash sha record := by
      intro e; rw [e, hg] at h; exact Option.noConfusion h
    simpa [alookup_aset_ne _ _ _ _ hne] using h
  · rw [goc_hit hg]; exact h

/-- The `get_or_create_dedup_key` never removes a hash from the store. -/
theorem goc_mono (sha : String → String) (freshKey : String)
    (record : Record) (m : Mappings) (x : String)
    (h : (alookup m.dataHashToKey x).isSome = true) :
    (alookup (get_or_create_dedup_key sha freshKey record m).2.2.dataHashToKey x).isSome
      = true := by
  rcases hx : alookup m.dataHashToKey x with _ | k
  · rw [hx] at h; exact Bool.noConfusion h
  · simp [goc_preserves_binding sha freshKey record m x k hx]

/-- After `get_or_create_dedup_key`, the record's own hash is bound. -/
theorem goc_binds_self (sha : String → String) (freshKey : String)
    (record : Record) (m : Mappings) :
    (alookup (get_or_create_dedup_key sha freshKey record m).2.2.dataHashToKey
      (generate_data_hash sha record)).isSome = true := by
  rcases hg : alookup m.dataHashToKey (generate_data_hash sha record) with _ | k
  · rw [goc_miss hg]; simp [alookup_aset_self]
  · rw [goc_hit hg]; simp [hg]

/-- The `link_records` never removes a hash from the store (it only
rebinds or adds). -/
theorem link_mono (sha : String → String) (dedupKey : String)
    (record : Record) (m : Mappings) (x : String)
    (h : (alookup m.dataHashToKey x).isSome = true) :
    (alookup (link_records sha dedupKey record m).dataHashToKey x).isSome = true := by
  exact isSome_alookup_aset _ _ _ _ h

/-- After `link_records`, the record's hash is bound (to the given key). -/
theorem link_binds_self (sha : String → String) (dedupKey : String)
    (record : Record) (m : Mappings) :
    alookup (link_records sha dedupKey record m).dataHashToKey
      (generate_data_hash sha record) = some dedupKey := by
  exact alookup_aset_self _ _ _

/-! ## The data hash only reads the five identifying raw fields -/

theorem dataHashComponents_aset (r : Record) (k v : String)
    (h1 : k ≠ "SOURCE_TYPE") (h2 : k ≠ "SOURCE_ID") (h3 : k ≠ "COMPANY_NAME")
    (h4 : k ≠ "ADDRESS_LINE_1") (h5 : k ≠ "PHONE_NUMBER") :
    dataHashComponents (aset r k v) = dataHashComponents r := by
  unfold dataHashComponents
  rw [agetD_aset_ne _ _ _ _ (Ne.symm h1), agetD_aset_ne _ _ _ _ (Ne.symm h2),
    agetD_aset_ne _ _ _ _ (Ne.symm h3), agetD_aset_ne _ _ _ _ (Ne.symm h4),
    agetD_aset_ne _ _ _ _ (Ne.symm h5)]

/-- Enrichment (standardization + quality fields) writes none of the
five fields that `generate_data_hash` reads. -/
theorem dataHashComponents_enrich (r : Record) :
    dataHashComponents (enrichRecord r) = dataHashComponents r := by
  simp only [enrichRecord, calculate_quality_scores, standardize_record]
  repeat rw [dataHashComponents_aset]
  all_goals decide

theorem generate_data_hash_enrich (sha : String → String) (r : Record) :
    generate_data_hash sha (enrichRecord r) = generate_data_hash sha r := by
  unfold generate_data_hash
  rw [dataHashComponents_enrich]

/-! ## Anatomy of one row-loop iteration -/

/-- Everything the loop invariants need about one `processRow` step:
the state shape (one result appended, index marked processed, the row
record updated in place), store monotonicity, that the processed
record's data hash ends up bound, and how the two counters move in the
matched and unmatched branches. -/
theorem processRow_spec (sha : String → String) (keys times : Nat → String)
    (rules : RuleSet) (blocks : List (String × List Nat)) (st : EngineState) (i : Nat) :
    ∃ rec' m' me' nk' ctr',
      processRow sha keys times rules blocks st i =
        ⟨st.recs.set i rec', m', me', nk', st.results ++ [rec'],
         st.processed ++ [i], ctr'⟩ ∧
      (∀ x, (alookup st.mappings.dataHashToKey x).isSome = true →
        (alookup m'.dataHashToKey x).isSome = true) ∧
      (alookup m'.dataHashToKey (generate_data_hash sha (rowRecord st i))).isSome = true ∧
      ((find_best_match (rowRecord st i) (rowCandidates blocks st i) rules).1.isSome = true →
        me' = st.matchedExisting + 1 ∧ nk' = st.newDedupKeys) ∧
      ((find_best_match (rowRecord st i) (rowCandidates blocks st i) rules).1 = none →
        me' = st.matchedExisting ∧
        nk' = (if (alookup st.mappings.dataHashToKey
                  (generate_data_hash sha (rowRecord st i))).isSome = true
               then st.newDedupKeys else st.newDedupKeys + 1)) := by
  simp only [processRow]
  rcases hfb : find_best_match (rowRecord st i) (rowCandidates blocks st i) rules
    with ⟨matched, matchReason, scores⟩
  cases matched with
  | none =>
    dsimp only
    rcases hg : alookup st.mappings.dataHashToKey (generate_data_hash sha (rowRecord st i))
      with _ | k
    · rw [goc_miss hg]
      refine ⟨_, _, _, _, _, rfl, ?_, ?_, ?_, ?_⟩
      · intro x hx
        exact isSome_alookup_aset _ _ _ _ hx
      · simp [alookup_aset_self]
      · intro hsome
        simp at hsome
      · intro _
        simp [hg]
    · rw [goc_hit hg]
      refine ⟨_, _, _, _, _, rfl, ?_, ?_, ?_, ?_⟩
      · intro x hx
        exact hx
      · simp [hg]
      · intro hsome
        simp at hsome
      · intro _
        simp [hg]
  | some matchedRecord =>
    dsimp only
    rcases hd : alookup matchedRecord "DEDUP_KEY" with _ | v
    · dsimp only
      rcases hg : alookup st.mappings.dataHashToKey (generate_data_hash sha (rowRecord st i))
        with _ | k
      · rw [goc_miss hg]
        refine ⟨_, _, _, _, _, rfl, ?_, ?_, ?_, ?_⟩
        · intro x hx
          exact link_mono _ _ _ _ _ (isSome_alookup_aset _ _ _ _ hx)
        · simp [link_binds_self]
        · intro _
          exact ⟨rfl, rfl⟩
        · intro hnone
          simp at hnone
      · rw [goc_hit hg]
        refine ⟨_, _, _, _, _, rfl, ?_, ?_, ?_, ?_⟩
        · intro x hx
          exact link_mono _ _ _ _ _ hx
        · simp [link_binds_self]
        · intro _
          exact ⟨rfl, rfl⟩
        · intro hnone
          simp at hnone
    · dsimp only
      by_cases hv : v = ""
      · subst hv
        rw [if_neg (by simp)]
        rcases hg : alookup st.mappings.dataHashToKey
            (generate_data_hash sha (rowRecord st i)) with _ | k
        · rw [goc_miss hg]
          refine ⟨_, _, _, _, _, rfl, ?_, ?_, ?_, ?_⟩
          · intro x hx
            exact link_mono _ _ _ _ _ (isSome_alookup_aset _ _ _ _ hx)
          · simp [link_binds_self]
          · intro _
            exact ⟨rfl, rfl⟩
          · intro hnone
            simp at hnone
        · rw [goc_hit hg]
          refine ⟨_, _, _, _, _, rfl, ?_, ?_, ?_, ?_⟩
          · intro x hx
            exact link_mono _ _ _ _ _ hx
          · simp [link_binds_self]
          · intro _
            exact ⟨rfl, rfl⟩
          · intro hnone
            simp at hnone
      · rw [if_pos hv]
        refine ⟨_, _, _, _, _, rfl, ?_, ?_, ?_, ?_⟩
        · intro x hx
          exact link_mono _ _ _ _ _ hx
        · simp [link_binds_self]
        · intro _
          exact ⟨rfl, rfl⟩
        · intro hnone
          simp at hnone

/-! ## The row-loop invariant -/

theorem storeMono_refl (a : Mappings) : StoreMono a a := fun _ hx => hx

/-- The loop's initial state satisfies the invariant. -/
theorem loopInv_init (sha : String → String) (records0 : List Record) (store : Mappings) :
    LoopInv sha records0 store 0 ⟨records0.map enrichRecord, store, 0, 0, [], [], 0⟩ := by
  refine ⟨by simp, fun j _ => rfl, rfl, rfl, storeMono_refl store, fun j hj => absurd hj (by omega)⟩

/-- The record processed at step `n` is the enrichment of the `n`-th
input record, as long as the invariant holds. -/
theorem rowRecord_eq_enrich {sha : String → String} {records0 : List Record} {store : Mappings}
    {n : Nat} {st : EngineState} (h : LoopInv sha records0 store n st)
    (hn : n < records0.length) :
    rowRecord st n = enrichRecord (records0.getD n []) := by
  rcases hr : records0.get? n with _ | r
  · exact absurd (List.get?_eq_none.mp hr) (by omega)
  · have hgd : records0.getD n [] = r := by
      show (records0.get? n).getD [] = r
      rw [hr]
      rfl
    have h1 : st.recs.get? n = some (enrichRecord r) := by
      rw [h.recs_eq n (le_refl n), List.get?_map, hr]
      rfl
    show (st.recs.get? n).getD [] = enrichRecord (records0.getD n [])
    rw [h1, hgd]
    exact Option.getD_some

/-- One loop iteration preserves the invariant. -/
theorem loopInv_step {sha : String → String} {records0 : List Record} {store : Mappings}
    {n : Nat} {st : EngineState} (keys times : Nat → String) (rules : RuleSet)
    (blocks : List (String × List Nat))
    (h : LoopInv sha records0 store n st) (hn : n < records0.length) :
    LoopInv sha records0 store (n + 1) (processRow sha keys times rules blocks st n) := by
  obtain ⟨rec', m', me', nk', ctr', hshape, hmono, hself, -, -⟩ :=
    processRow_spec sha keys times rules blocks st n
  rw [hshape]
  refine ⟨?_, ?_, ?_, ?_, ?_, ?_⟩
  · simpa using h.recs_len
  · intro j hj
    have hne : n ≠ j := by omega
    show (st.recs.set n rec').get? j = _
    rw [List.get?_set_ne rec' st.recs hne]
    exact h.recs_eq j (by omega)
  · show st.processed ++ [n] = _
    rw [h.processed_eq, List.range_succ]
  · show (st.results ++ [rec']).length = n + 1
    simp [h.results_len]
  · exact fun x hx => hmono x (h.mono x hx)
  · intro j hj
    rcases Nat.lt_or_ge j n with hlt | hge
    · exact hmono _ (h.hashes_present j hlt)
    · have hjn : j = n := by omega
      subst hjn
      rw [← generate_data_hash_enrich sha, ← rowRecord_eq_enrich h hn]
      exact hself

/-- The invariant holds after any prefix of the loop. -/
theorem loopInv_foldl (sha : String → String) (keys times : Nat → String) (rules : RuleSet)
    (blocks : List (String × List Nat)) (records0 : List Record) (store : Mappings)
    (n : Nat) (hn : n ≤ records0.length) :
    LoopInv sha records0 store n
      ((List.range n).foldl (processRow sha keys times rules blocks)
        ⟨records0.map enrichRecord, store, 0, 0, [], [], 0⟩) := by
  induction n with
  | zero => exact loopInv_init sha records0 store
  | succ k ih =>
    rw [List.range_succ, List.foldl_append]
    exact loopInv_step keys times rules blocks (ih (by omega)) (by omega)

/-- The `runCore` is the statistics/results/store of the final loop state. -/
theorem runCore_eq_finalState (sha : String → String) (keys times : Nat → String)
    (rules : RuleSet) (store : Mappings) (records0 : List Record) :
    runCore sha keys times rules store records0 =
      { stats := ⟨records0.length,
          (finalState sha keys times rules store records0).matchedExisting,
          (finalState sha keys times rules store records0).newDedupKeys, 0⟩
        results := (finalState sha keys times rules store records0).results
        mappings := (finalState sha keys times rules store records0).mappings } := rfl

/-- The invariant at the end of the whole loop. -/
theorem loopInv_final (sha : String → String) (keys times : Nat → String) (rules : RuleSet)
    (store : Mappings) (records0 : List Record) :
    LoopInv sha records0 store records0.length
      (finalState sha keys times rules store records0) := by
  have h := loopInv_foldl sha keys times rules (buildBlocks (records0.map enrichRecord))
    records0 store records0.length (le_refl _)
  simpa only [finalState, List.length_map] using h

/-- The `run_matching` never removes a binding's hash from the store. -/
theorem runCore_mono (sha : String → String) (keys times : Nat → String) (rules : RuleSet)
    (store : Mappings) (records0 : List Record) (x : String)
    (hx : (alookup store.dataHashToKey x).isSome = true) :
    (alookup (runCore sha keys times rules store records0).mappings.dataHashToKey x).isSome
      = true :=
  (loopInv_final sha keys times rules store records0).mono x hx

/-- After a run, every input record's data hash is bound in the store. -/
theorem runCore_hashes_present (sha : String → String) (keys times : Nat → String)
    (rules : RuleSet) (store : Mappings) (records0 : List Record) (j : Nat)
    (hj : j < records0.length) :
    (alookup (runCore sha keys times rules store records0).mappings.dataHashToKey
      (generate_data_hash sha (records0.getD j []))).isSome = true :=
  (loopInv_final sha keys times rules store records0).hashes_present j hj

/-- A run emits exactly one output row per ingested record. -/
theorem runCore_results_length (sha : String → String) (keys times : Nat → String)
    (rules : RuleSet) (store : Mappings) (records0 : List Record) :
    (runCore sha keys times rules store records0).results.length = records0.length :=
  (loopInv_final sha keys times rules store records0).results_len

/-! ## When every input hash is already stored -/

/-- If every input record's data hash is already bound in the starting
store, no loop iteration ever increments `new_dedup_keys`. -/
theorem newKeysZero_foldl (sha : String → String) (keys times : Nat → String)
    (rules : RuleSet) (blocks : List (String × List Nat))
    (records0 : List Record) (store : Mappings)
    (hall : ∀ j, j < records0.length →
      (alookup store.dataHashToKey (generate_data_hash sha (records0.getD j []))).isSome
        = true)
    (n : Nat) (hn : n ≤ records0.length) :
    ((List.range n).foldl (processRow sha keys times rules blocks)
      ⟨records0.map enrichRecord, store, 0, 0, [], [], 0⟩).newDedupKeys = 0 := by
  induction n with
  | zero => rfl
  | succ k ih =>
    rw [List.range_succ, List.foldl_append]
    have hinv := loopInv_foldl sha keys times rules blocks records0 store k (by omega)
    set stk := (List.range k).foldl (processRow sha keys times rules blocks)
      ⟨records0.map enrichRecord, store, 0, 0, [], [], 0⟩ with hstk
    obtain ⟨rec', m', me', nk', ctr', hshape, -, -, hm, hnone⟩ :=
      processRow_spec sha keys times rules blocks stk k
    have hpresent : (alookup stk.mappings.dataHashToKey
        (generate_data_hash sha (rowRecord stk k))).isSome = true := by
      rw [rowRecord_eq_enrich hinv (by omega), generate_data_hash_enrich]
      exact hinv.mono _ (hall k (by omega))
    simp only [List.foldl_cons, List.foldl_nil, hshape]
    rcases hfb : (find_best_match (rowRecord stk k) (rowCandidates blocks stk k) rules).1
      with _ | c
    · obtain ⟨-, hnk⟩ := hnone hfb
      rw [hnk, if_pos hpresent]
      exact ih (by omega)
    · obtain ⟨-, hnk⟩ := hm (by rw [hfb]; rfl)
      rw [hnk]
      exact ih (by omega)

/-- Run-level corollary: a run whose every input hash is already stored
reports `new_dedup_keys = 0`. -/
theorem runCore_new_keys_zero (sha : String → String) (keys times : Nat → String)
    (rules : RuleSet) (store : Mappings) (records0 : List Record)
    (hall : ∀ j, j < records0.length →
      (alookup store.dataHashToKey (generate_data_hash sha (records0.getD j []))).isSome
        = true) :
    (runCore sha keys times rules store records0).stats.new_dedup_keys = 0 := by
  rw [runCore_eq_finalState]
  show (finalState sha keys times rules store records0).newDedupKeys = 0
  simp only [finalState, List.length_map]
  exact newKeysZero_foldl sha keys times rules _ records0 store hall records0.length (le_refl _)

/-! ## The uuid supply is not consulted when every hash is stored -/

/-- A `processRow` step on a record whose hash is already bound does not
consult the uuid supply. -/
theorem processRow_keys_congr (sha : String → String) (keys1 keys2 times : Nat → String)
    (rules : RuleSet) (blocks : List (String × List Nat)) (st : EngineState) (i : Nat)
    (h : (alookup st.mappings.dataHashToKey
      (generate_data_hash sha (rowRecord st i))).isSome = true) :
    processRow sha keys1 times rules blocks st i =
      processRow sha keys2 times rules blocks st i := by
  obtain ⟨k, hk⟩ := Option.isSome_iff_exists.mp h
  simp only [processRow, goc_hit hk]

/-- Whole-loop corollary of `processRow_keys_congr`. -/
theorem finalState_keys_irrelevant (sha : String → String) (keys1 keys2 times : Nat → String)
    (rules : RuleSet) (store : Mappings) (records0 : List Record)
    (hall : ∀ j, j < records0.length →
      (alookup store.dataHashToKey (generate_data_hash sha (records0.getD j []))).isSome
        = true) :
    finalState sha keys1 times rules store records0 =
      finalState sha keys2 times rules store records0 := by
  simp only [finalState, List.length_map]
  suffices hfold : ∀ n, n ≤ records0.length →
      (List.range n).foldl
        (processRow sha keys1 times rules (buildBlocks (records0.map enrichRecord)))
        ⟨records0.map enrichRecord, store, 0, 0, [], [], 0⟩ =
      (List.range n).foldl
        (processRow sha keys2 times rules (buildBlocks (records0.map enrichRecord)))
        ⟨records0.map enrichRecord, store, 0, 0, [], [], 0⟩ by
    exact hfold records0.length (le_refl _)
  intro n hn
  induction n with
  | zero => rfl
  | succ k ih =>
    rw [List.range_succ, List.foldl_append, List.foldl_append,
      List.foldl_cons, List.foldl_cons, List.foldl_nil, List.foldl_nil, ← ih (by omega)]
    have hinv := loopInv_foldl sha keys1 times rules
      (buildBlocks (records0.map enrichRecord)) records0 store k (by omega)
    apply processRow_keys_congr
    rw [rowRecord_eq_enrich hinv (by omega), generate_data_hash_enrich]
    exact hinv.mono _ (hall k (by omega))

/-- The `runCore` does not depend on the uuid supply when every input hash
is already in the store (no fresh key is ever minted). -/
theorem runCore_keys_irrelevant (sha : String → String) (keys1 keys2 times : Nat → String)
    (rules : RuleSet) (store : Mappings) (records0 : List Record)
    (hall : ∀ j, j < records0.length →
      (alookup store.dataHashToKey (generate_data_hash sha (records0.getD j []))).isSome
        = true) :
    runCore sha keys1 times rules store records0 =
      runCore sha keys2 times rules store records0 := by
  rw [runCore_eq_finalState, runCore_eq_finalState,
    finalState_keys_irrelevant sha keys1 keys2 times rules store records0 hall]

/-! ## The match decisions do not depend on the store -/

/-- Under the invariant, the row record at step `n` agrees between two
runs on the same input (their unprocessed rows are both the enriched
input rows). -/
theorem rowRecord_congr {sha1 sha2 : String → String} {records0 : List Record}
    {store1 store2 : Mappings} {n : Nat} {st1 st2 : EngineState}
    (h1 : LoopInv sha1 records0 store1 n st1) (h2 : LoopInv sha2 records0 store2 n st2) :
    rowRecord st1 n = rowRecord st2 n := by
  show (st1.recs.get? n).getD [] = (st2.recs.get? n).getD []
  rw [h1.recs_eq n (le_refl n), h2.recs_eq n (le_refl n)]

/-- Under the invariant, the candidate list at step `n` agrees between
two runs on the same input: candidates are unprocessed rows, which both
runs still hold in their original enriched form. -/
theorem rowCandidates_congr {sha1 sha2 : String → String} {records0 : List Record}
    {store1 store2 : Mappings} {n : Nat} {st1 st2 : EngineState}
    (blocks : List (String × List Nat))
    (h1 : LoopInv sha1 records0 store1 n st1) (h2 : LoopInv sha2 records0 store2 n st2) :
    rowCandidates blocks st1 n = rowCandidates blocks st2 n := by
  simp only [rowCandidates]
  rw [rowRecord_congr h1 h2, h1.processed_eq, h2.processed_eq]
  apply List.map_eq_map_iff.mpr
  intro j hj
  obtain ⟨-, hcond⟩ := List.mem_filter.mp hj
  obtain ⟨-, hnc⟩ := (Bool.and_eq_true _ _).mp hcond
  have hge : n ≤ j := by
    by_contra hlt
    have : (List.range n).contains j = true :=
      List.elem_iff.mpr (List.mem_range.mpr (by omega))
    rw [this] at hnc
    exact Bool.noConfusion hnc
  show (st1.recs.get? j).getD [] = (st2.recs.get? j).getD []
  rw [h1.recs_eq j hge, h2.recs_eq j hge]

/-- The `matched_existing` counter is the same for any two runs on the
same input and rules: the match decisions read only the unprocessed
(enriched input) records, never the store, hashes, uuids or timestamps. -/
theorem matchedExisting_foldl_congr (sha1 sha2 : String → String)
    (keys1 keys2 times1 times2 : Nat → String) (rules : RuleSet)
    (blocks : List (String × List Nat)) (records0 : List Record)
    (store1 store2 : Mappings) (n : Nat) (hn : n ≤ records0.length) :
    ((List.range n).foldl (processRow sha1 keys1 times1 rules blocks)
      ⟨records0.map enrichRecord, store1, 0, 0, [], [], 0⟩).matchedExisting =
    ((List.range n).foldl (processRow sha2 keys2 times2 rules blocks)
      ⟨records0.map enrichRecord, store2, 0, 0, [], [], 0⟩).matchedExisting := by
  induction n with
  | zero => rfl
  | succ k ih =>
    rw [List.range_succ, List.foldl_append, List.foldl_append,
      List.foldl_cons, List.foldl_cons, List.foldl_nil, List.foldl_nil]
    have hinv1 := loopInv_foldl sha1 keys1 times1 rules blocks records0 store1 k (by omega)
    have hinv2 := loopInv_foldl sha2 keys2 times2 rules blocks records0 store2 k (by omega)
    set s1 := (List.range k).foldl (processRow sha1 keys1 times1 rules blocks)
      ⟨records0.map enrichRecord, store1, 0, 0, [], [], 0⟩ with hs1
    set s2 := (List.range k).foldl (processRow sha2 keys2 times2 rules blocks)
      ⟨records0.map enrichRecord, store2, 0, 0, [], [], 0⟩ with hs2
    obtain ⟨rec1, m1, me1, nk1, ctr1, hshape1, -, -, hm1, hn1⟩ :=
      processRow_spec sha1 keys1 times1 rules blocks s1 k
    obtain ⟨rec2, m2, me2, nk2, ctr2, hshape2, -, -, hm2, hn2⟩ :=
      processRow_spec sha2 keys2 times2 rules blocks s2 k
    have hfbeq : find_best_match (rowRecord s1 k) (rowCandidates blocks s1 k) rules =
        find_best_match (rowRecord s2 k) (rowCandidates blocks s2 k) rules := by
      rw [rowRecord_congr hinv1 hinv2, rowCandidates_congr blocks hinv1 hinv2]
    rw [hshape1, hshape2]
    rcases hfb : (find_best_match (rowRecord s2 k) (rowCandidates blocks s2 k) rules).1
      with _ | c
    · obtain ⟨hme1, -⟩ := hn1 (by rw [hfbeq, hfb])
      obtain ⟨hme2, -⟩ := hn2 hfb
      show me1 = me2
      rw [hme1, hme2]
      exact ih (by omega)
    · obtain ⟨hme1, -⟩ := hm1 (by rw [hfbeq, hfb]; rfl)
      obtain ⟨hme2, -⟩ := hm2 (by rw [hfb]; rfl)
      show me1 = me2
      rw [hme1, hme2]
      exact congrArg (· + 1) (ih (by omega))

/-- Run-level corollary: `matched_existing` depends only on the input
records and the rules, not on the store, hash, uuid or clock. -/
theorem runCore_matched_existing_independent (sha1 sha2 : String → String)
    (keys1 keys2 times1 times2 : Nat → String) (rules : RuleSet)
    (store1 store2 : Mappings) (records0 : List Record) :
    (runCore sha1 keys1 times1 rules store1 records0).stats.matched_existing =
    (runCore sha2 keys2 times2 rules store2 records0).stats.matched_existing := by
  rw [runCore_eq_finalState, runCore_eq_finalState]
  show (finalState sha1 keys1 times1 rules store1 records0).matchedExisting =
    (finalState sha2 keys2 times2 rules store2 records0).matchedExisting
  simp only [finalState, List.length_map]
  exact matchedExisting_foldl_congr sha1 sha2 keys1 keys2 times1 times2 rules _
    records0 store1 store2 records0.length (le_refl _)

/-! ## Header auto-mapping lemmas -/

/-- Whatever `findStdColumn` returns comes from a metadata entry whose
canonical name or alternates match the source header exactly. -/
theorem findStdColumn_some {h c : String} {metadata : List (String × ColumnMeta)}
    (hf : findStdColumn h metadata = some c) :
    ∃ meta, (c, meta) ∈ metadata ∧ columnMatches (pyStrip (pyUpper h)) c meta = true := by
  induction metadata with
  | nil => exact absurd hf (by simp [findStdColumn])
  | cons p rest ih =>
    rw [findStdColumn, List.findSome?_cons] at hf
    by_cases hcm : columnMatches (pyStrip (pyUpper h)) p.1 p.2 = true
    · rw [if_pos hcm] at hf
      have hpc : some p.1 = some c := hf
      obtain rfl : p.1 = c := by injection hpc
      exact ⟨p.2, List.mem_cons_self p rest, hcm⟩
    · rw [if_neg hcm] at hf
      have hrest : findStdColumn h rest = some c := hf
      obtain ⟨meta, hmem, hmatch⟩ := ih hrest
      exact ⟨meta, List.mem_cons_of_mem p hmem, hmatch⟩

/-- A header that matches no metadata entry gets no standard column. -/
theorem findStdColumn_none {h : String} {metadata : List (String × ColumnMeta)}
    (hall : ∀ p ∈ metadata, columnMatches (pyStrip (pyUpper h)) p.1 p.2 = false) :
    findStdColumn h metadata = none := by
  induction metadata with
  | nil => rfl
  | cons p rest ih =>
    rw [findStdColumn, List.findSome?_cons, hall p (by simp)]
    exact ih (fun q hq => hall q (List.mem_cons_of_mem p hq))

/-- Soundness of the mapping fold: every binding in the produced
mapping is the `findStdColumn` result of its header. -/
theorem build_column_mapping_sound {headers : List String}
    {metadata : List (String × ColumnMeta)} {h c : String}
    (hb : alookup (build_column_mapping headers metadata) h = some c) :
    findStdColumn h metadata = some c := by
  suffices haux : ∀ (hs : List String) (m0 : List (String × String)),
      alookup (hs.foldl (fun mapping hd =>
        match findStdColumn hd metadata with
        | some std => aset mapping hd std
        | none => mapping) m0) h = some c →
      alookup m0 h = some c ∨ findStdColumn h metadata = some c by
    rcases haux headers [] hb with hnil | hgood
    · exact absurd hnil (by simp [alookup])
    · exact hgood
  intro hs
  induction hs with
  | nil => exact fun m0 hm => Or.inl hm
  | cons hd rest ih =>
    intro m0 hm
    simp only [List.foldl_cons] at hm
    rcases hfs : findStdColumn hd metadata with _ | std
    · rw [hfs] at hm
      exact ih m0 hm
    · rw [hfs] at hm
      rcases ih (aset m0 hd std) hm with hset | hgood
      · by_cases hh : h = hd
        · subst hh
          rw [alookup_aset_self] at hset
          obtain rfl : std = c := by injection hset
          exact Or.inr hfs
        · rw [alookup_aset_ne _ _ _ _ hh] at hset
          exact Or.inl hset
      · exact Or.inr hgood

/-- A header matching no metadata entry is left unmapped. -/
theorem build_column_mapping_unmapped {headers : List String}
    {metadata : List (String × ColumnMeta)} {h : String}
    (hall : ∀ p ∈ metadata, columnMatches (pyStrip (pyUpper h)) p.1 p.2 = false) :
    alookup (build_column_mapping headers metadata) h = none := by
  rcases hb : alookup (build_column_mapping headers metadata) h with _ | c
  · rfl
  · have := build_column_mapping_sound hb
    rw [findStdColumn_none hall] at this
    exact Option.noConfusion this

/-! ## Characters surviving `normalize_text` -/

theorem mem_collapseRun {c : Char} :
    ∀ {l : List Char} {b : Bool}, c ∈ collapseRun l b →
      c = ' ' ∨ (c ∈ l ∧ isPySpace c = false) := by
  intro l
  induction l with
  | nil => intro b hc; exact absurd hc (by simp [collapseRun])
  | cons d cs ih =>
    intro b hc
    rw [collapseRun] at hc
    rcases hsp : isPySpace d with _ | _
    · rw [hsp] at hc
      simp only [Bool.false_eq_true, if_false] at hc
      rcases List.mem_cons.mp hc with hcd | hcs
      · exact Or.inr ⟨by simp [hcd], by rw [hcd]; exact hsp⟩
      · rcases ih hcs with hspace | ⟨hmem, hns⟩
        · exact Or.inl hspace
        · exact Or.inr ⟨List.mem_cons_of_mem d hmem, hns⟩
    · rw [hsp] at hc
      simp only [if_true] at hc
      have hc' : c ∈ ' ' :: collapseRun cs true := by
        rcases b with _ | _
        · simpa using hc
        · exact List.mem_cons_of_mem ' ' (by simpa using hc)
      rcases List.mem_cons.mp hc' with hcd | hcs
      · exact Or.inl hcd
      · rcases ih hcs with hspace | ⟨hmem, hns⟩
        · exact Or.inl hspace
        · exact Or.inr ⟨List.mem_cons_of_mem d hmem, hns⟩

theorem mem_stripChars {c : Char} {l : List Char} (hc : c ∈ stripChars l) : c ∈ l := by
  unfold stripChars at hc
  rw [List.mem_reverse] at hc
  have h1 := (List.dropWhile_sublist (l := (l.dropWhile isPySpace).reverse) isPySpace).mem hc
  rw [List.mem_reverse] at h1
  exact (List.dropWhile_sublist isPySpace).mem h1

/-! ## Claim theorems -/

/-- C1: on the S1 input under the company≥85 ∧ phone≥100 ∧ zip≥100 rule
against an empty store, the run reports `matched_existing = 1` and
`new_dedup_keys = 1` as the claim says, but the two emitted rows carry
two DIFFERENT dedup keys (`key0` and `key1`): the candidate filter
excludes already-processed rows, so row 1 never sees row 0's key, and
the matched branch keys row 0 under its own hash only. -/
theorem claim_C1 :
    s1Run.1.stats.matched_existing = 1 ∧
    s1Run.1.stats.new_dedup_keys = 1 ∧
    (s1Run.1.results.map fun r => agetD r "DEDUP_KEY") = ["key0", "key1"] ∧
    ("key0" : String) ≠ "key1" := by
  decide

/-- C2 (amended): re-running on the same input against the store of the
first run yields `new_dedup_keys = 0` (every hash is already bound) and
the SAME `matched_existing` as the first run — not `total_records`:
`matched_existing` only counts rows matched to an in-file candidate and
never counts store hits. -/
theorem claim_C2 (sha : String → String) (keys1 keys2 times1 times2 : Nat → String)
    (rules : RuleSet) (store : Mappings) (records0 : List Record) :
    (runCore sha keys2 times2 rules
      (runCore sha keys1 times1 rules store records0).mappings records0).stats.new_dedup_keys
      = 0 ∧
    (runCore sha keys2 times2 rules
      (runCore sha keys1 times1 rules store records0).mappings records0).stats.matched_existing
      = (runCore sha keys1 times1 rules store records0).stats.matched_existing := by
  constructor
  · exact runCore_new_keys_zero sha keys2 times2 rules _ records0
      (fun j hj => runCore_hashes_present sha keys1 times1 rules store records0 j hj)
  · exact runCore_matched_existing_independent sha sha keys2 keys1 times2 times1 rules
      _ store records0

/-- C2 counterexample: one record, no rules.  The second run against
the first run's store reports `matched_existing = 0 ≠ 1 = total_records`
(and `new_dedup_keys = 0`), refuting
`matched_existing == total_records`. -/
theorem claim_C2_counterexample :
    soloRun2.stats.total_records = 1 ∧
    soloRun2.stats.matched_existing = 0 ∧
    soloRun2.stats.new_dedup_keys = 0 := by
  decide

/-- C3 (amended): the domain of `data_hash_to_key` never shrinks under
`get_or_create_dedup_key`, `link_records`, or a whole `run_matching`
loop, and `get_or_create_dedup_key` never changes an existing binding —
but `link_records` always (re)binds the record's hash to the key it is
given, which changes the binding when that key differs. -/
theorem claim_C3 :
    (∀ (sha : String → String) (freshKey : String) (record : Record) (m : Mappings)
        (x k : String), alookup m.dataHashToKey x = some k →
      alookup (get_or_create_dedup_key sha freshKey record m).2.2.dataHashToKey x = some k) ∧
    (∀ (sha : String → String) (dedupKey : String) (record : Record) (m : Mappings)
        (x : String), (alookup m.dataHashToKey x).isSome = true →
      (alookup (link_records sha dedupKey record m).dataHashToKey x).isSome = true) ∧
    (∀ (sha : String → String) (keys times : Nat → String) (rules : RuleSet)
        (store : Mappings) (records0 : List Record) (x : String),
      (alookup store.dataHashToKey x).isSome = true →
      (alookup (runCore sha keys times rules store records0).mappings.dataHashToKey x).isSome
        = true) ∧
    (∀ (sha : String → String) (dedupKey : String) (record : Record) (m : Mappings),
      alookup (link_records sha dedupKey record m).dataHashToKey
        (generate_data_hash sha record) = some dedupKey) := by
  exact ⟨goc_preserves_binding, link_mono, runCore_mono, link_binds_self⟩

/-- C3 witness: the three monotonicity conjuncts applied at a concrete
store that already binds the empty record's hash `||||` to `K1`. -/
theorem claim_C3_witness :
    alookup (get_or_create_dedup_key shaId "K9" [] c3Store).2.2.dataHashToKey "||||"
      = some "K1" ∧
    (alookup (link_records shaId "K1" [] c3Store).dataHashToKey "||||").isSome = true ∧
    (alookup (runCore shaId keySupply timeStub [] c3Store [soloRecord]).mappings.dataHashToKey
      "||||").isSome = true :=
  ⟨claim_C3.1 shaId "K9" [] c3Store "||||" "K1" (by decide),
   claim_C3.2.1 shaId "K1" [] c3Store "||||" (by decide),
   claim_C3.2.2.1 shaId keySupply timeStub [] c3Store [soloRecord] "||||" (by decide)⟩

/-- C3 counterexample: `link_records` called with `K2` on a record
whose hash is bound to `K1` rewrites the binding — bindings are not
immutable across pipeline operations. -/
theorem claim_C3_counterexample :
    alookup c3Store.dataHashToKey (generate_data_hash shaId []) = some "K1" ∧
    alookup (link_records shaId "K2" [] c3Store).dataHashToKey (generate_data_hash shaId [])
      = some "K2" ∧
    ("K1" : String) ≠ "K2" := by
  decide

/-- C4 (amended): with the uuid draws fixed — in particular whenever
every input record's data hash is already bound in the store, so that
no fresh uuid4 key is ever minted — two executions on the same input,
rules and store produce identical results and output CSV.  Freshly
minted DEDUP_KEY values, however, come from uuid4 and are not a
function of the inputs (see the counterexample). -/
theorem claim_C4 (sha : String → String) (keys1 keys2 times : Nat → String)
    (rules : RuleSet) (store : Mappings) (header : List String)
    (rows : List (List String))
    (hall : ∀ j, j < (readRecords header rows).length →
      (alookup store.dataHashToKey
        (generate_data_hash sha ((readRecords header rows).getD j []))).isSome = true) :
    runMatching sha keys1 times rules store header rows =
      runMatching sha keys2 times rules store header rows := by
  unfold runMatching
  rw [runCore_keys_irrelevant sha keys1 keys2 times rules store (readRecords header rows) hall]

/-- C4 witness: the solo record's hash is in the store produced by its
first run, so a second run is identical for two different uuid
supplies. -/
theorem claim_C4_witness :
    runMatching shaId (fun _ => "aaaa") timeStub [] soloRun1.mappings soloHeader soloRows =
      runMatching shaId (fun _ => "bbbb") timeStub [] soloRun1.mappings soloHeader soloRows :=
  claim_C4 shaId (fun _ => "aaaa") (fun _ => "bbbb") timeStub [] soloRun1.mappings
    soloHeader soloRows (by decide)

/-- C4 counterexample: the same one-row input, rules, store and
timestamps under two uuid4 draws (`aaaa` vs `bbbb`) give output tables
that differ even after deleting the MATCH_TIMESTAMP column — the
DEDUP_KEY cell carries the minted uuid. -/
theorem claim_C4_counterexample :
    eraseColumn "MATCH_TIMESTAMP" c4RunA.2 ≠ eraseColumn "MATCH_TIMESTAMP" c4RunB.2 := by
  decide

/-- C7 (amended): `run_matching`'s reader only skips rows parsed as the
empty field list (blank lines, which `csv.DictReader` drops); every
other row — including rows all of whose values are empty strings —
counts toward `total_records` and yields exactly one output row. -/
theorem claim_C7 (sha : String → String) (keys times : Nat → String) (rules : RuleSet)
    (store : Mappings) (header : List String) (rows : List (List String)) :
    (runMatching sha keys times rules store header rows).1.stats.total_records
      = (rows.filter fun r => !r.isEmpty).length ∧
    (runMatching sha keys times rules store header rows).1.results.length
      = (rows.filter fun r => !r.isEmpty).length := by
  constructor
  · show (readRecords header rows).length = _
    unfold readRecords
    exact List.length_map _ _
  · rw [show (runMatching sha keys times rules store header rows).1
        = runCore sha keys times rules store (readRecords header rows) from rfl,
      runCore_results_length]
    unfold readRecords
    exact List.length_map _ _

/-- C7 counterexample: a row of two empty-string fields (the CSV line
`,`) is all-empty after trimming, yet it is ingested: `total_records`
is 1, not 0, and one output row is emitted. -/
theorem claim_C7_counterexample :
    (∀ v ∈ [",", ""], pyStrip v ≠ "x") ∧
    (∀ v ∈ ["", ""], pyStrip v = "") ∧
    c7Run.1.stats.total_records = 1 ∧
    c7Run.1.results.length = 1 := by
  decide

/-- C10: `new_dedup_keys` is incremented only in the NEW (no-match)
branch — a matched row never moves it, even when `get_or_create` mints
a brand-new key inside the matched branch.  On the S1 input the store
gains two fresh keys while the run reports `new_dedup_keys = 1`. -/
theorem claim_C10 :
    (∀ (sha : String → String) (keys times : Nat → String) (rules : RuleSet)
        (blocks : List (String × List Nat)) (st : EngineState) (i : Nat),
      (find_best_match (rowRecord st i) (rowCandidates blocks st i) rules).1.isSome = true →
      (processRow sha keys times rules blocks st i).newDedupKeys = st.newDedupKeys) ∧
    s1Run.1.mappings.keyToIdentifiers.length = 2 ∧
    s1Run.1.stats.new_dedup_keys = 1 := by
  refine ⟨?_, by decide, by decide⟩
  intro sha keys times rules blocks st i hsome
  obtain ⟨rec', m', me', nk', ctr', hshape, -, -, hm, -⟩ :=
    processRow_spec sha keys times rules blocks st i
  rw [hshape]
  exact (hm hsome).2

/-- C10 witness: at row 0 of the S1 run a match is found, and the step
leaves `new_dedup_keys` unchanged even though it mints a fresh key. -/
theorem claim_C10_witness :
    (find_best_match (rowRecord c10State 0) (rowCandidates c10Blocks c10State 0)
      s1Rules).1.isSome = true ∧
    (processRow shaId keySupply timeStub s1Rules c10Blocks c10State 0).newDedupKeys
      = c10State.newDedupKeys :=
  ⟨by decide,
   claim_C10.1 shaId keySupply timeStub s1Rules c10Blocks c10State 0 (by decide)⟩

/-- C5 (amended): for a field whose uppercased name contains NAME but
none of COMPANY, ADDRESS, PHONE or EMAIL, condition evaluation uses the
company comparator, but the score recorded by `evaluate_rule` uses the
GENERIC token-sort similarity of the raw values — the two dispatch
tables differ (the scores path has no NAME case). -/
theorem claim_C5 (f v1 v2 : String) (T : ℚ) (reason : String)
    (hname : strContains (pyUpper f) "NAME" = true)
    (hcompany : strContains (pyUpper f) "COMPANY" = false)
    (haddress : strContains (pyUpper f) "ADDRESS" = false)
    (hphone : strContains (pyUpper f) "PHONE" = false)
    (hemail : strContains (pyUpper f) "EMAIL" = false)
    (hv1 : pyStrip v1 = v1) (hv2 : pyStrip v2 = v2)
    (hn1 : v1 ≠ "") (hn2 : v2 ≠ "") :
    conditionSimilarity f v1 v2 = compare_company_names v1 v2 ∧
    scoreSimilarity f v1 v2 = calculate_similarity v1 v2 ∧
    evaluate_rule [(f, v1)] [(f, v2)]
        { enabled := true, priority := 1, match_reason := some reason,
          conditions := [{ field := f, percentage := T }] } =
      (decide (T ≤ compare_company_names v1 v2),
       [(pyLower f ++ "_score", calculate_similarity v1 v2)]) := by
  have h1 : conditionSimilarity f v1 v2 = compare_company_names v1 v2 := by
    simp [conditionSimilarity, hname, hcompany]
  have h2 : scoreSimilarity f v1 v2 = calculate_similarity v1 v2 := by
    simp [scoreSimilarity, hcompany, haddress, hphone, hemail]
  refine ⟨h1, h2, ?_⟩
  have hget1 : agetD [(f, v1)] f = v1 := by simp [agetD, alookup]
  have hget2 : agetD [(f, v2)] f = v2 := by simp [agetD, alookup]
  simp only [evaluate_rule, evalConditions, evaluate_condition, hget1, hget2, hv1, hv2,
    hn1, hn2, h1, h2, aset, Bool.not_true, Bool.false_eq_true, if_false,
    List.isEmpty_cons, ne_eq, not_false_iff, Bool.and_self, if_true]
  by_cases hc : T ≤ compare_company_names v1 v2
  · simp [hc, evalConditions]
  · simp [hc]

/-- C5 witness: field `CONTACT_NAME` with values `widget inc` and
`widget` — the condition sees company similarity 100, the recorded
score is the generic token-sort similarity 75. -/
theorem claim_C5_witness :
    conditionSimilarity "CONTACT_NAME" "widget inc" "widget"
      = compare_company_names "widget inc" "widget" ∧
    scoreSimilarity "CONTACT_NAME" "widget inc" "widget"
      = calculate_similarity "widget inc" "widget" ∧
    evaluate_rule [("CONTACT_NAME", "widget inc")] [("CONTACT_NAME", "widget")]
        { enabled := true, priority := 1, match_reason := some "R",
          conditions := [{ field := "CONTACT_NAME", percentage := 0 }] } =
      (decide ((0 : ℚ) ≤ compare_company_names "widget inc" "widget"),
       [("contact_name_score", calculate_similarity "widget inc" "widget")]) :=
  claim_C5 "CONTACT_NAME" "widget inc" "widget" 0 "R" (by decide) (by decide) (by decide)
    (by decide) (by decide) (by decide) (by decide) (by decide) (by decide)

/-- C5 counterexample: on field `NAME` the scores dict records 75 (the
generic token-sort score of the raw values) while
`compare_company_names` gives 100 — the recorded score does NOT equal
the company comparator, refuting the shared-table claim. -/
theorem claim_C5_counterexample :
    evaluate_rule [("NAME", "widget inc")] [("NAME", "widget")] nameRule
      = (true, [("name_score", 75)]) ∧
    compare_company_names "widget inc" "widget" = 100 ∧
    ((75 : ℚ) ≠ 100) := by
  decide

/-- C6 (amended): `build_column_mapping` maps a source header only by
EXACT (case-insensitive, source trimmed) equality with a canonical name
or one of its `alternate_columns`, scanning the metadata in order;
headers that merely contain or are contained in a canonical name are
left unmapped — the 100/95/70 substring scoring exists only in the
separate auto-map endpoint, not here. -/
theorem claim_C6 :
    (∀ (headers : List String) (metadata : List (String × ColumnMeta)) (h c : String),
      alookup (build_column_mapping headers metadata) h = some c →
      ∃ meta, (c, meta) ∈ metadata ∧ columnMatches (pyStrip (pyUpper h)) c meta = true) ∧
    (∀ (headers : List String) (metadata : List (String × ColumnMeta)) (h : String),
      (∀ p ∈ metadata, columnMatches (pyStrip (pyUpper h)) p.1 p.2 = false) →
      alookup (build_column_mapping headers metadata) h = none) :=
  ⟨fun _ _ _ _ hb => findStdColumn_some (build_column_mapping_sound hb),
   fun _ _ _ hall => build_column_mapping_unmapped hall⟩

/-- C6 witness: both conjuncts applied at concrete metadata — an exact
(case-insensitive) match maps, and the proper-substring header
`COMPANY` matches nothing. -/
theorem claim_C6_witness :
    (∃ meta, ("COMPANY_NAME", meta) ∈ [("COMPANY_NAME", ColumnMeta.mk [])] ∧
      columnMatches (pyStrip (pyUpper "company_name")) "COMPANY_NAME" meta = true) ∧
    alookup (build_column_mapping ["COMPANY"] [("COMPANY_NAME", ColumnMeta.mk [])]) "COMPANY"
      = none :=
  ⟨claim_C6.1 ["company_name"] [("COMPANY_NAME", ColumnMeta.mk [])] "company_name"
      "COMPANY_NAME" (by decide),
   claim_C6.2 ["COMPANY"] [("COMPANY_NAME", ColumnMeta.mk [])] "COMPANY" (by decide)⟩

/-- C6 counterexample: `COMPANY` is a proper substring of the canonical
column `COMPANY_NAME` and matches nothing exactly; the claim says it
maps to `COMPANY_NAME`, but `build_column_mapping` returns the empty
mapping — there is no substring scoring in this function. -/
theorem claim_C6_counterexample :
    strContains "COMPANY_NAME" "COMPANY" = true ∧
    ("COMPANY" : String) ≠ "COMPANY_NAME" ∧
    build_column_mapping ["COMPANY"] [("COMPANY_NAME", ColumnMeta.mk [])] = [] := by
  decide

/-- C8 (amended): `normalize_text` replaces every character that is
neither a word character (`\w`: alphanumeric or underscore) nor
whitespace by a space, so each output character is alphanumeric, an
underscore, or a space — underscores are preserved, not replaced. -/
theorem claim_C8 (s : String) (c : Char) (hc : c ∈ (normalize_text s).data) :
    c.isAlphanum = true ∨ c = '_' ∨ c = ' ' := by
  unfold normalize_text at hc
  by_cases hs : s = ""
  · rw [if_pos hs] at hc
    have hnil : ("" : String).data = [] := rfl
    rw [hnil] at hc
    exact absurd hc (List.not_mem_nil c)
  · rw [if_neg hs] at hc
    have hc1 := mem_stripChars hc
    rcases mem_collapseRun hc1 with hsp | ⟨hmem, hns⟩
    · exact Or.inr (Or.inr hsp)
    · obtain ⟨a, -, ha⟩ := List.mem_map.mp hmem
      by_cases hcond : (isWordChar a || isPySpace a) = true
      · rw [if_pos hcond] at ha
        subst ha
        rcases (Bool.or_eq_true _ _).mp hcond with hw | hspa
        · rcases (Bool.or_eq_true _ _).mp hw with halnum | hund
          · exact Or.inl halnum
          · exact Or.inr (Or.inl (by simpa using hund))
        · rw [hns] at hspa
          exact Bool.noConfusion hspa
      · rw [if_neg hcond] at ha
        subst ha
        exact Or.inr (Or.inr rfl)

/-- C8 witness: the amended character property applied at the concrete
input `a_b` and its surviving underscore. -/
theorem claim_C8_witness :
    ('_'.isAlphanum = true ∨ '_' = '_' ∨ '_' = ' ') :=
  claim_C8 "a_b" '_' (by decide)

/-- C8 counterexample: `normalize_text` keeps the underscore of `a_b`
(`\w` covers it), while the spec's replace-every-non-alphanumeric
reading would give `a b` — a non-alphanumeric character appears in the
output. -/
theorem claim_C8_counterexample :
    normalize_text "a_b" = "a_b" ∧
    specNormalizeText "a_b" = "a b" ∧
    ('_' ∈ (normalize_text "a_b").data) ∧
    '_'.isAlphanum = false := by
  decide

/-- C9: `1-800-555-0199` with no extension scores 0 on `not_toll_free`
and totals 82 (≤ 88); in general any phone whose normalized digits
start with a toll-free area code forfeits the 12 `not_toll_free` points
and can total at most 88. -/
theorem claim_C9 :
    (calculate_phone_quality "1-800-555-0199" "").not_toll_free = 0 ∧
    (calculate_phone_quality "1-800-555-0199" "").total = 82 ∧
    ∀ phone ext : String,
      TOLL_FREE_CODES.contains ((phoneQualityDigits phone).take 3).asString = true →
      (calculate_phone_quality phone ext).total ≤ 88 := by
  refine ⟨by decide, by decide, ?_⟩
  intro phone ext h
  by_cases hp : phone = ""
  · simp [calculate_phone_quality, hp]
  · rw [calculate_phone_quality, if_neg hp]
    by_cases hl : (phoneQualityDigits phone).length = 10
    · rw [if_pos hl]
      have htf : (!TOLL_FREE_CODES.contains
          ((phoneQualityDigits phone).take 3).asString) = false := by
        rw [h]
        rfl
      simp only [htf, Bool.false_eq_true, if_false]
      split_ifs <;> omega
    · rw [if_neg hl]
      show (0 : Nat) ≤ 88
      exact Nat.zero_le 88

/-- C9 witness: the toll-free bound applied at the concrete phone. -/
theorem claim_C9_witness :
    (calculate_phone_quality "1-800-555-0199" "").total ≤ 88 :=
  claim_C9.2.2 "1-800-555-0199" "" (by decide)

end MatchEng
